import Mathlib

/-!
Verification of the cu2qu cubic-to-quadratic approximation engine
(`Lib/cu2qu/__init__.py`).

The Python code works on 2D points encoded as Python `complex` numbers
(floating point).  The shallow embedding below uses exact rational
arithmetic: a point is a pair of rationals, complex multiplication is
spelled out, and every floating-point constant of the source
(`.125`, `.5`, `1.5`, `2/3`, `1/27`, `1/n`, `i/(n-1)`) is taken as the
exact rational it denotes.  A magnitude comparison `abs(z) <= tol` is
modelled by the equivalent exact test `0 <= tol ∧ normSq z <= tol^2`.

`cubic_farthest_fit_inside` recurses by curve bisection, which has no
structural termination measure (and genuinely need not terminate in exact
arithmetic), so it takes an explicit `fuel` argument; exhausted fuel
yields `false`, i.e. a conservative rejection.  All drivers thread the
fuel through.  Python's `raise ApproxNotFoundError(curve)` is modelled by
`Except.error curve`.
-/

namespace Cu2Qu

/-- A 2D point with rational coordinates, modelling the Python `complex`
values used throughout `cu2qu`. -/
@[ext]
structure Pt where
  re : ℚ
  im : ℚ
deriving DecidableEq, Repr

instance : Zero Pt := ⟨⟨0, 0⟩⟩
instance : Add Pt := ⟨fun a b => ⟨a.re + b.re, a.im + b.im⟩⟩
instance : Sub Pt := ⟨fun a b => ⟨a.re - b.re, a.im - b.im⟩⟩
instance : Neg Pt := ⟨fun a => ⟨-a.re, -a.im⟩⟩

/-- Complex multiplication on points (Python `*` on `complex`). -/
instance : Mul Pt := ⟨fun a b => ⟨a.re * b.re - a.im * b.im, a.re * b.im + a.im * b.re⟩⟩

/-- Multiplication of a point by a real scalar (Python `z * s` with `s` a
`float`). -/
def Pt.scale (a : Pt) (s : ℚ) : Pt := ⟨a.re * s, a.im * s⟩

/-- Complex conjugate (Python `z.conjugate()`). -/
def Pt.conj (a : Pt) : Pt := ⟨a.re, -a.im⟩

/-- The imaginary unit (Python `1j`). -/
def Pt.J : Pt := ⟨0, 1⟩

/-- Squared Euclidean magnitude; `abs(z) <= t` is modelled as
`0 <= t ∧ normSq z <= t^2`. -/
def Pt.normSq (a : Pt) : ℚ := a.re ^ 2 + a.im ^ 2

@[simp] lemma Pt.zero_re : (0 : Pt).re = 0 := rfl
@[simp] lemma Pt.zero_im : (0 : Pt).im = 0 := rfl
@[simp] lemma Pt.add_re (a b : Pt) : (a + b).re = a.re + b.re := rfl
@[simp] lemma Pt.add_im (a b : Pt) : (a + b).im = a.im + b.im := rfl
@[simp] lemma Pt.sub_re (a b : Pt) : (a - b).re = a.re - b.re := rfl
@[simp] lemma Pt.sub_im (a b : Pt) : (a - b).im = a.im - b.im := rfl
@[simp] lemma Pt.neg_re (a : Pt) : (-a).re = -a.re := rfl
@[simp] lemma Pt.neg_im (a : Pt) : (-a).im = -a.im := rfl
@[simp] lemma Pt.mul_re (a b : Pt) : (a * b).re = a.re * b.re - a.im * b.im := rfl
@[simp] lemma Pt.mul_im (a b : Pt) : (a * b).im = a.re * b.im + a.im * b.re := rfl
@[simp] lemma Pt.scale_re (a : Pt) (s : ℚ) : (a.scale s).re = a.re * s := rfl
@[simp] lemma Pt.scale_im (a : Pt) (s : ℚ) : (a.scale s).im = a.im * s := rfl
@[simp] lemma Pt.conj_re (a : Pt) : a.conj.re = a.re := rfl
@[simp] lemma Pt.conj_im (a : Pt) : a.conj.im = -a.im := rfl

/-- A cubic Bezier curve as its ordered 4-tuple of control points. -/
@[ext]
structure Cubic where
  p0 : Pt
  p1 : Pt
  p2 : Pt
  p3 : Pt
deriving DecidableEq, Repr

instance : Inhabited Cubic := ⟨⟨0, 0, 0, 0⟩⟩

/-- The ceiling `MAX_N = 100` of the segment-count search. -/
def MAX_N : ℕ := 100

/-- Source `dot(v1, v2)`: dot product via complex conjugation, exactly as in the
source: `(v1 * v2.conjugate()).real`. -/
def dot (v1 v2 : Pt) : ℚ := (v1 * v2.conj).re

/-- Source `calc_cubic_points(a, b, c, d)`: control points of the cubic whose
power-basis (polynomial) coefficients are `a, b, c, d`. -/
def calc_cubic_points (a b c d : Pt) : Cubic :=
  ⟨d, c.scale (1/3) + d, (b + c).scale (1/3) + (c.scale (1/3) + d), a + d + c + b⟩

/-- Source `calc_cubic_parameters(p0, p1, p2, p3)`: power-basis coefficients
`(a, b, c, d)` of the cubic with the given control points. -/
def calc_cubic_parameters (p0 p1 p2 p3 : Pt) : Pt × Pt × Pt × Pt :=
  ((p3 - p0) - ((p1 - p0).scale 3) - ((p2 - p1).scale 3 - (p1 - p0).scale 3),
   (p2 - p1).scale 3 - (p1 - p0).scale 3,
   (p1 - p0).scale 3,
   p0)

/-- Loop body of the general (power-basis) path of `split_cubic_into_n`:
the sub-cubic appended at index `i in range(n)`, with `dt = 1/n` and
`t1 = i*dt`. -/
def split_gen_seg (p0 p1 p2 p3 : Pt) (n i : ℕ) : Cubic :=
  match calc_cubic_parameters p0 p1 p2 p3 with
  | (a, b, c, d) =>
    calc_cubic_points (a.scale ((1 / (n : ℚ)) * (1 / (n : ℚ)) * (1 / (n : ℚ))))
      ((a.scale (3 * ((i : ℚ) * (1 / (n : ℚ)))) + b).scale ((1 / (n : ℚ)) * (1 / (n : ℚ))))
      ((b.scale (2 * ((i : ℚ) * (1 / (n : ℚ)))) + c +
          a.scale (3 * (((i : ℚ) * (1 / (n : ℚ))) * ((i : ℚ) * (1 / (n : ℚ)))))).scale
        (1 / (n : ℚ)))
      (a.scale (((i : ℚ) * (1 / (n : ℚ))) * ((i : ℚ) * (1 / (n : ℚ))) * ((i : ℚ) * (1 / (n : ℚ)))) +
        b.scale (((i : ℚ) * (1 / (n : ℚ))) * ((i : ℚ) * (1 / (n : ℚ)))) +
        c.scale ((i : ℚ) * (1 / (n : ℚ))) + d)

/-- The general (power-basis) path of `split_cubic_into_n`: the loop of
the source for arbitrary `n`, one sub-cubic per `i in range(n)`. -/
def split_cubic_into_n_gen (p0 p1 p2 p3 : Pt) (n : ℕ) : List Cubic :=
  (List.range n).map (split_gen_seg p0 p1 p2 p3 n)

/-- Source `split_cubic_into_two`: closed-form bisection of a cubic. -/
def split_cubic_into_two (p0 p1 p2 p3 : Pt) : Cubic × Cubic :=
  (⟨p0, (p0 + p1).scale (1/2),
    (p0 + (p1 + p2).scale 3 + p3).scale (1/8) - (p3 + p2 - p1 - p0).scale (1/8),
    (p0 + (p1 + p2).scale 3 + p3).scale (1/8)⟩,
   ⟨(p0 + (p1 + p2).scale 3 + p3).scale (1/8),
    (p0 + (p1 + p2).scale 3 + p3).scale (1/8) + (p3 + p2 - p1 - p0).scale (1/8),
    (p2 + p3).scale (1/2), p3⟩)

/-- Source `split_cubic_into_three`: closed-form split of a cubic into thirds. -/
def split_cubic_into_three (p0 p1 p2 p3 : Pt) : Cubic × Cubic × Cubic :=
  (⟨p0, (p0.scale 2 + p1).scale (1/3),
    (p0.scale 8 + p1.scale 12 + p2.scale 6 + p3).scale (1/27) -
      (p3 + p2.scale 3 - p0.scale 4).scale (1/27),
    (p0.scale 8 + p1.scale 12 + p2.scale 6 + p3).scale (1/27)⟩,
   ⟨(p0.scale 8 + p1.scale 12 + p2.scale 6 + p3).scale (1/27),
    (p0.scale 8 + p1.scale 12 + p2.scale 6 + p3).scale (1/27) +
      (p3 + p2.scale 3 - p0.scale 4).scale (1/27),
    (p0 + p1.scale 6 + p2.scale 12 + p3.scale 8).scale (1/27) -
      (p3.scale 4 - p1.scale 3 - p0).scale (1/27),
    (p0 + p1.scale 6 + p2.scale 12 + p3.scale 8).scale (1/27)⟩,
   ⟨(p0 + p1.scale 6 + p2.scale 12 + p3.scale 8).scale (1/27),
    (p0 + p1.scale 6 + p2.scale 12 + p3.scale 8).scale (1/27) +
      (p3.scale 4 - p1.scale 3 - p0).scale (1/27),
    (p2 + p3.scale 2).scale (1/3), p3⟩)

/-- Source `split_cubic_into_n`: dispatches to the hand-coded `n = 2` / `n = 3`
fast paths, otherwise to the power-basis method. -/
def split_cubic_into_n (p0 p1 p2 p3 : Pt) (n : ℕ) : List Cubic :=
  if n = 2 then
    [(split_cubic_into_two p0 p1 p2 p3).1, (split_cubic_into_two p0 p1 p2 p3).2]
  else if n = 3 then
    [(split_cubic_into_three p0 p1 p2 p3).1, (split_cubic_into_three p0 p1 p2 p3).2.1,
     (split_cubic_into_three p0 p1 p2 p3).2.2]
  else split_cubic_into_n_gen p0 p1 p2 p3 n

/-- Source `cubic_approx_control(p, t)`: candidate quadratic control point for a
cubic, blending the two extended endpoint tangents at ratio `t`. -/
def cubic_approx_control (p : Cubic) (t : ℚ) : Pt :=
  (p.p0 + (p.p1 - p.p0).scale (3/2)) +
    ((p.p3 + (p.p2 - p.p3).scale (3/2)) - (p.p0 + (p.p1 - p.p0).scale (3/2))).scale t

/-- Source `calc_intersect(a, b, c, d)`: intersection of the lines `ab` and `cd`;
`none` models the `ZeroDivisionError` branch (parallel directions). -/
def calc_intersect (a b c d : Pt) : Option Pt :=
  if dot ((b - a) * Pt.J) (d - c) = 0 then none
  else some (c + (d - c).scale (dot ((b - a) * Pt.J) (a - c) / dot ((b - a) * Pt.J) (d - c)))

/-- The exact-rational rendering of `abs(z) <= t`. -/
def absLe (z : Pt) (t : ℚ) : Bool :=
  decide (0 ≤ t) && decide (z.normSq ≤ t ^ 2)

/-- Source `cubic_farthest_fit_inside(p0, p1, p2, p3, tolerance)` with explicit
recursion fuel: `true` iff the cubic lies within `tolerance` of the
origin; accepts when both interior control points fit, rejects when the
curve's parametric midpoint does not fit, otherwise bisects and recurses
on both halves.  Fuel exhaustion gives `false`. -/
def cubic_farthest_fit_inside : ℕ → Pt → Pt → Pt → Pt → ℚ → Bool
  | 0, _, _, _, _, _ => false
  | fuel + 1, p0, p1, p2, p3, tolerance =>
    if absLe p2 tolerance && absLe p1 tolerance then true
    else if !(absLe ((p0 + (p1 + p2).scale 3 + p3).scale (1/8)) tolerance) then false
    else
      cubic_farthest_fit_inside fuel p0 ((p0 + p1).scale (1/2))
        ((p0 + (p1 + p2).scale 3 + p3).scale (1/8) - (p3 + p2 - p1 - p0).scale (1/8))
        ((p0 + (p1 + p2).scale 3 + p3).scale (1/8)) tolerance &&
      cubic_farthest_fit_inside fuel ((p0 + (p1 + p2).scale 3 + p3).scale (1/8))
        ((p0 + (p1 + p2).scale 3 + p3).scale (1/8) + (p3 + p2 - p1 - p0).scale (1/8))
        ((p2 + p3).scale (1/2)) p3 tolerance

/-- Modelled from the spec: the recursive bound test exactly as §4.4 and
claim C8 word it — "if both endpoints of the delta curve already exceed
tolerance, fail fast; if both interior control points are within
tolerance, accept; otherwise bisect the delta curve at its midpoint and
recurse on both halves" — for comparison against the source's
`cubic_farthest_fit_inside`, whose fail-fast tests the parametric
midpoint of the curve instead of the endpoints. -/
def farthest_fit_spec_steps : ℕ → Pt → Pt → Pt → Pt → ℚ → Bool
  | 0, _, _, _, _, _ => false
  | fuel + 1, p0, p1, p2, p3, tolerance =>
    if !(absLe p0 tolerance) && !(absLe p3 tolerance) then false
    else if absLe p2 tolerance && absLe p1 tolerance then true
    else
      farthest_fit_spec_steps fuel p0 ((p0 + p1).scale (1/2))
        ((p0 + (p1 + p2).scale 3 + p3).scale (1/8) - (p3 + p2 - p1 - p0).scale (1/8))
        ((p0 + (p1 + p2).scale 3 + p3).scale (1/8)) tolerance &&
      farthest_fit_spec_steps fuel ((p0 + (p1 + p2).scale 3 + p3).scale (1/8))
        ((p0 + (p1 + p2).scale 3 + p3).scale (1/8) + (p3 + p2 - p1 - p0).scale (1/8))
        ((p2 + p3).scale (1/2)) p3 tolerance

/-- The `for i in range(1, n+1)` loop of `cubic_approx_spline` for `n > 1`,
made structural over the list of remaining sub-cubics.  The state
`(i, next_q1, q2, d1, spline)` is exactly the source's loop state at the
top of iteration `i`; the current sub-cubic `cubics[i-1]` heads the list,
and `i < n` holds precisely when a further sub-cubic follows it. -/
def spline_loop (tolerance : ℚ) (P3 : Pt) (n fuel : ℕ) :
    List Cubic → ℕ → Pt → Pt → Pt → List Pt → Option (List Pt)
  | [], _, _, _, _, spline => some (spline ++ [P3])
  | c :: rest, i, next_q1, q2, d1, spline =>
    match rest with
    | [] =>
      if absLe (P3 - c.p3) tolerance &&
         cubic_farthest_fit_inside fuel d1
           (q2 + (next_q1 - q2).scale (2/3) - c.p1)
           (P3 + (next_q1 - P3).scale (2/3) - c.p2)
           (P3 - c.p3) tolerance then
        spline_loop tolerance P3 n fuel [] (i + 1) next_q1 P3 (P3 - c.p3) spline
      else none
    | c2 :: rest2 =>
      if absLe ((next_q1 + cubic_approx_control c2 ((i : ℚ) / ((n : ℚ) - 1))).scale (1/2) - c.p3)
           tolerance &&
         cubic_farthest_fit_inside fuel d1
           (q2 + (next_q1 - q2).scale (2/3) - c.p1)
           ((next_q1 + cubic_approx_control c2 ((i : ℚ) / ((n : ℚ) - 1))).scale (1/2) +
              (next_q1 - (next_q1 + cubic_approx_control c2 ((i : ℚ) / ((n : ℚ) - 1))).scale (1/2)).scale (2/3)
              - c.p2)
           ((next_q1 + cubic_approx_control c2 ((i : ℚ) / ((n : ℚ) - 1))).scale (1/2) - c.p3)
           tolerance then
        spline_loop tolerance P3 n fuel (c2 :: rest2) (i + 1)
          (cubic_approx_control c2 ((i : ℚ) / ((n : ℚ) - 1)))
          ((next_q1 + cubic_approx_control c2 ((i : ℚ) / ((n : ℚ) - 1))).scale (1/2))
          ((next_q1 + cubic_approx_control c2 ((i : ℚ) / ((n : ℚ) - 1))).scale (1/2) - c.p3)
          (spline ++ [cubic_approx_control c2 ((i : ℚ) / ((n : ℚ) - 1))])
      else none

/-- Source `cubic_approx_spline(cubic, n, tolerance)`: spline of `n` quadratics
approximating `cubic`, or `none` when the candidate fails (or, at `n = 1`,
cannot be constructed).  For `n = 0` the source would fault indexing an
empty split; that unreachable branch is `none` here. -/
def cubic_approx_spline (fuel : ℕ) (cubic : Cubic) (n : ℕ) (tolerance : ℚ) :
    Option (List Pt) :=
  if n = 1 then
    match calc_intersect cubic.p0 cubic.p1 cubic.p2 cubic.p3 with
    | none => none
    | some q1 =>
      if cubic_farthest_fit_inside fuel 0
           ((cubic.p0 + (q1 - cubic.p0).scale (2/3)) - cubic.p1)
           ((cubic.p3 + (q1 - cubic.p3).scale (2/3)) - cubic.p2)
           0 tolerance then
        some [cubic.p0, q1, cubic.p3]
      else none
  else
    match split_cubic_into_n cubic.p0 cubic.p1 cubic.p2 cubic.p3 n with
    | [] => none
    | c0 :: rest =>
      spline_loop tolerance cubic.p3 n fuel (c0 :: rest) 1
        (cubic_approx_control c0 0) cubic.p0 0
        [cubic.p0, cubic_approx_control c0 0]

/-- The `for n in range(1, MAX_N + 1)` search of `curve_to_quadratic`:
`tries` candidates remain, the next candidate segment count is `n`. -/
def curveToQuadAux (fuel : ℕ) (curve : Cubic) (max_err : ℚ) :
    ℕ → ℕ → Except Cubic (List Pt)
  | 0, _ => Except.error curve
  | tries + 1, n =>
    match cubic_approx_spline fuel curve n max_err with
    | some spline => Except.ok spline
    | none => curveToQuadAux fuel curve max_err tries (n + 1)

/-- Source `curve_to_quadratic(curve, max_err)`; here `Except.error curve` models
`raise ApproxNotFoundError(curve)`. -/
def curve_to_quadratic (fuel : ℕ) (curve : Cubic) (max_err : ℚ) :
    Except Cubic (List Pt) :=
  curveToQuadAux fuel curve max_err MAX_N 1

/-- The inner `for c, e in zip(curves, max_errors)` loop of
`curves_to_quadratic` at a fixed `n`: all splines, or `none` as soon as
one curve fails at this `n`. -/
def splinesForN (fuel n : ℕ) : List (Cubic × ℚ) → Option (List (List Pt))
  | [] => some []
  | (c, e) :: rest =>
    match cubic_approx_spline fuel c n e with
    | none => none
    | some s =>
      match splinesForN fuel n rest with
      | none => none
      | some ss => some (s :: ss)

/-- The outer `for n in range(1, MAX_N + 1)` search of
`curves_to_quadratic`. -/
def curvesToQuadAux (fuel : ℕ) (pairs : List (Cubic × ℚ)) (curves : List Cubic) :
    ℕ → ℕ → Except (List Cubic) (List (List Pt))
  | 0, _ => Except.error curves
  | tries + 1, n =>
    match splinesForN fuel n pairs with
    | some splines => Except.ok splines
    | none => curvesToQuadAux fuel pairs curves tries (n + 1)

/-- Source `curves_to_quadratic(curves, max_errors)`; the `assert` of the source
is carried as a hypothesis by the theorems that need it. -/
def curves_to_quadratic (fuel : ℕ) (curves : List Cubic) (max_errors : List ℚ) :
    Except (List Cubic) (List (List Pt)) :=
  curvesToQuadAux fuel (curves.zip max_errors) curves MAX_N 1

/-! ### Curve evaluation (the mathematical meaning of the data)

The spec's §4.1 defines point-on-curve evaluation by nested linear
interpolation (de Casteljau); these definitions give the claims their
notion of "the curve at parameter t". -/

/-- Linear interpolation `lerp(a, b, t) = a + (b - a) * t` (spec §4.1). -/
def lerp (a b : Pt) (t : ℚ) : Pt := a + (b - a).scale t

/-- Evaluation of a quadratic Bezier via two nested lerps (spec §4.1). -/
def quadPoint (q0 q1 q2 : Pt) (t : ℚ) : Pt :=
  lerp (lerp q0 q1 t) (lerp q1 q2 t) t

/-- Evaluation of a cubic Bezier via three nested lerps (spec §4.1). -/
def cubicPoint (c : Cubic) (t : ℚ) : Pt :=
  lerp (lerp (lerp c.p0 c.p1 t) (lerp c.p1 c.p2 t) t)
       (lerp (lerp c.p1 c.p2 t) (lerp c.p2 c.p3 t) t) t

/-- 2D cross product; two direction vectors are parallel iff it is 0. -/
def cross (v w : Pt) : ℚ := v.re * w.im - v.im * w.re

/-- Evaluation of segment `m` of a returned spline `s` (spec §3: a spline
of `k = s.length - 2` segments stores the on-curve joints implicitly as
midpoints of consecutive off-curve points, except the pinned ends). -/
def segEval (s : List Pt) (m : ℕ) (t : ℚ) : Pt :=
  quadPoint
    (if m = 0 then s.getD 0 0 else (s.getD m 0 + s.getD (m + 1) 0).scale (1/2))
    (s.getD (m + 1) 0)
    (if m + 1 = s.length - 2 then s.getD (s.length - 1) 0
     else (s.getD (m + 1) 0 + s.getD (m + 2) 0).scale (1/2))
    t

lemma cubicPoint_zero (c : Cubic) : cubicPoint c 0 = c.p0 := by
  ext <;> simp [cubicPoint, lerp]

lemma cubicPoint_one (c : Cubic) : cubicPoint c 1 = c.p3 := by
  ext <;> simp [cubicPoint, lerp]

lemma absLe_iff (z : Pt) (t : ℚ) :
    absLe z t = true ↔ 0 ≤ t ∧ z.normSq ≤ t ^ 2 := by
  simp [absLe]

lemma normSq_zero : (0 : Pt).normSq = 0 := by simp [Pt.normSq]

lemma normSq_nonneg (z : Pt) : 0 ≤ z.normSq := by
  have h1 := sq_nonneg z.re
  have h2 := sq_nonneg z.im
  simp only [Pt.normSq]; linarith

/-- Convexity of the squared norm along a lerp: interpolating between two
points inside a disc stays inside the disc. -/
lemma normSq_lerp_le (a b : Pt) (t r : ℚ) (ht0 : 0 ≤ t) (ht1 : t ≤ 1)
    (ha : a.normSq ≤ r) (hb : b.normSq ≤ r) : (lerp a b t).normSq ≤ r := by
  simp only [Pt.normSq, lerp, Pt.add_re, Pt.add_im, Pt.scale_re, Pt.scale_im,
    Pt.sub_re, Pt.sub_im] at *
  nlinarith [mul_nonneg (sub_nonneg.mpr ht1) (sub_nonneg.mpr ha),
    mul_nonneg ht0 (sub_nonneg.mpr hb),
    mul_nonneg (mul_nonneg ht0 (sub_nonneg.mpr ht1))
      (add_nonneg (sq_nonneg (b.re - a.re)) (sq_nonneg (b.im - a.im)))]

/-- Convex hull property at one parameter: a cubic whose four control
points lie in a disc around the origin stays in that disc. -/
lemma normSq_cubicPoint_le (c : Cubic) (t r : ℚ) (ht0 : 0 ≤ t) (ht1 : t ≤ 1)
    (h0 : c.p0.normSq ≤ r) (h1 : c.p1.normSq ≤ r) (h2 : c.p2.normSq ≤ r)
    (h3 : c.p3.normSq ≤ r) : (cubicPoint c t).normSq ≤ r := by
  unfold cubicPoint
  exact normSq_lerp_le _ _ _ _ ht0 ht1
    (normSq_lerp_le _ _ _ _ ht0 ht1
      (normSq_lerp_le _ _ _ _ ht0 ht1 h0 h1) (normSq_lerp_le _ _ _ _ ht0 ht1 h1 h2))
    (normSq_lerp_le _ _ _ _ ht0 ht1
      (normSq_lerp_le _ _ _ _ ht0 ht1 h1 h2) (normSq_lerp_le _ _ _ _ ht0 ht1 h2 h3))

/-- The `mid` point computed by the subdivision formulas is the curve's
value at the parametric midpoint. -/
lemma mid_eq_cubicPoint_half (p0 p1 p2 p3 : Pt) :
    (p0 + (p1 + p2).scale 3 + p3).scale (1/8) = cubicPoint ⟨p0, p1, p2, p3⟩ (1/2) := by
  ext <;> simp [cubicPoint, lerp] <;> ring

/-- The left de Casteljau half evaluates as the original curve on the
first half of the parameter interval. -/
lemma cubicPoint_left_half (p0 p1 p2 p3 : Pt) (t : ℚ) :
    cubicPoint ⟨p0, (p0 + p1).scale (1/2),
        (p0 + (p1 + p2).scale 3 + p3).scale (1/8) - (p3 + p2 - p1 - p0).scale (1/8),
        (p0 + (p1 + p2).scale 3 + p3).scale (1/8)⟩ t =
      cubicPoint ⟨p0, p1, p2, p3⟩ (t / 2) := by
  ext <;> simp [cubicPoint, lerp] <;> ring

/-- The right de Casteljau half evaluates as the original curve on the
second half of the parameter interval. -/
lemma cubicPoint_right_half (p0 p1 p2 p3 : Pt) (t : ℚ) :
    cubicPoint ⟨(p0 + (p1 + p2).scale 3 + p3).scale (1/8),
        (p0 + (p1 + p2).scale 3 + p3).scale (1/8) + (p3 + p2 - p1 - p0).scale (1/8),
        (p2 + p3).scale (1/2), p3⟩ t =
      cubicPoint ⟨p0, p1, p2, p3⟩ ((t + 1) / 2) := by
  ext <;> simp [cubicPoint, lerp] <;> ring

/-- Degree elevation and subtraction: the difference between a quadratic
and a cubic is the cubic whose control points are the differences of the
elevated quadratic's and the cubic's control points — exactly the delta
curve handed to `cubic_farthest_fit_inside` by `cubic_approx_spline`. -/
lemma quad_sub_cubic (q0 q1 q2 : Pt) (c : Cubic) (t : ℚ) :
    quadPoint q0 q1 q2 t - cubicPoint c t =
      cubicPoint ⟨q0 - c.p0, q0 + (q1 - q0).scale (2/3) - c.p1,
        q2 + (q1 - q2).scale (2/3) - c.p2, q2 - c.p3⟩ t := by
  ext <;> simp [cubicPoint, quadPoint, lerp] <;> ring

/-! ### Correctness of the subdivision paths -/

lemma split_gen_length (p0 p1 p2 p3 : Pt) (n : ℕ) :
    (split_cubic_into_n_gen p0 p1 p2 p3 n).length = n := by
  rw [split_cubic_into_n_gen, List.length_map, List.length_range]

/-- A cubic built by `calc_cubic_points` evaluates as the power-basis
polynomial of its coefficients. -/
lemma cubicPoint_calc_points (a b c d : Pt) (t : ℚ) :
    cubicPoint (calc_cubic_points a b c d) t =
      a.scale (t * t * t) + b.scale (t * t) + c.scale t + d := by
  ext <;> simp only [calc_cubic_points, cubicPoint, lerp,
    Pt.add_re, Pt.add_im, Pt.sub_re, Pt.sub_im, Pt.scale_re, Pt.scale_im] <;> ring

/-- The power-basis coefficients from `calc_cubic_parameters` reproduce
the Bezier evaluation of the original control points. -/
lemma calc_parameters_eval (p0 p1 p2 p3 : Pt) (s : ℚ) :
    (calc_cubic_parameters p0 p1 p2 p3).1.scale (s * s * s) +
      (calc_cubic_parameters p0 p1 p2 p3).2.1.scale (s * s) +
      (calc_cubic_parameters p0 p1 p2 p3).2.2.1.scale s +
      (calc_cubic_parameters p0 p1 p2 p3).2.2.2 =
    cubicPoint ⟨p0, p1, p2, p3⟩ s := by
  ext <;> simp only [calc_cubic_parameters, cubicPoint, lerp,
    Pt.add_re, Pt.add_im, Pt.sub_re, Pt.sub_im, Pt.scale_re, Pt.scale_im] <;> ring

/-- Each piece produced by the power-basis split evaluates as the original
curve on its equal-parameter sub-interval. -/
lemma split_gen_eval (p0 p1 p2 p3 : Pt) (n i : ℕ) (hi : i < n) (t : ℚ) :
    cubicPoint ((split_cubic_into_n_gen p0 p1 p2 p3 n).getD i default) t =
      cubicPoint ⟨p0, p1, p2, p3⟩ (((i : ℚ) + t) / (n : ℚ)) := by
  have hn : (n : ℚ) ≠ 0 := Nat.cast_ne_zero.mpr (by omega)
  have hlen : i < (split_cubic_into_n_gen p0 p1 p2 p3 n).length := by
    rw [split_gen_length]; exact hi
  rw [List.getD_eq_getElem _ _ hlen]
  simp only [split_cubic_into_n_gen, List.getElem_map, List.getElem_range]
  rw [split_gen_seg, ← calc_parameters_eval p0 p1 p2 p3 (((i : ℚ) + t) / (n : ℚ))]
  rcases calc_cubic_parameters p0 p1 p2 p3 with ⟨a, b, c, d⟩
  rw [cubicPoint_calc_points]
  ext <;> simp only [Pt.add_re, Pt.add_im, Pt.scale_re, Pt.scale_im] <;>
    field_simp <;> ring

/-- The closed-form bisection agrees exactly with the power-basis method
at `n = 2`. -/
lemma split_two_eq_gen (p0 p1 p2 p3 : Pt) :
    split_cubic_into_n_gen p0 p1 p2 p3 2 =
      [(split_cubic_into_two p0 p1 p2 p3).1, (split_cubic_into_two p0 p1 p2 p3).2] := by
  simp only [split_cubic_into_n_gen, show List.range 2 = [0, 1] from rfl, List.map,
    List.cons.injEq, and_true]
  constructor <;>
    · ext <;> simp only [split_gen_seg, calc_cubic_points, calc_cubic_parameters,
        split_cubic_into_two, Pt.add_re, Pt.add_im, Pt.sub_re, Pt.sub_im,
        Pt.scale_re, Pt.scale_im, Nat.cast_zero, Nat.cast_one, Nat.cast_ofNat] <;>
      norm_num <;> ring

/-- The closed-form thirds formula agrees exactly with the power-basis
method at `n = 3`. -/
lemma split_three_eq_gen (p0 p1 p2 p3 : Pt) :
    split_cubic_into_n_gen p0 p1 p2 p3 3 =
      [(split_cubic_into_three p0 p1 p2 p3).1, (split_cubic_into_three p0 p1 p2 p3).2.1,
       (split_cubic_into_three p0 p1 p2 p3).2.2] := by
  simp only [split_cubic_into_n_gen, show List.range 3 = [0, 1, 2] from rfl, List.map,
    List.cons.injEq, and_true]
  refine ⟨?_, ?_, ?_⟩ <;>
    · ext <;> simp only [split_gen_seg, calc_cubic_points, calc_cubic_parameters,
        split_cubic_into_three, Pt.add_re, Pt.add_im, Pt.sub_re, Pt.sub_im,
        Pt.scale_re, Pt.scale_im, Nat.cast_zero, Nat.cast_one, Nat.cast_ofNat] <;>
      norm_num <;> ring

lemma split_n_length (p0 p1 p2 p3 : Pt) (n : ℕ) :
    (split_cubic_into_n p0 p1 p2 p3 n).length = n := by
  unfold split_cubic_into_n
  split_ifs with h2 h3
  · subst h2; rfl
  · subst h3; rfl
  · exact split_gen_length p0 p1 p2 p3 n

/-- Each piece produced by `split_cubic_into_n` (whichever path) evaluates
as the original curve on its equal-parameter sub-interval. -/
lemma split_n_eval (p0 p1 p2 p3 : Pt) (n i : ℕ) (hi : i < n) (t : ℚ) :
    cubicPoint ((split_cubic_into_n p0 p1 p2 p3 n).getD i default) t =
      cubicPoint ⟨p0, p1, p2, p3⟩ (((i : ℚ) + t) / (n : ℚ)) := by
  unfold split_cubic_into_n
  split_ifs with h2 h3
  · subst h2; rw [← split_two_eq_gen]; exact split_gen_eval p0 p1 p2 p3 2 i hi t
  · subst h3; rw [← split_three_eq_gen]; exact split_gen_eval p0 p1 p2 p3 3 i hi t
  · exact split_gen_eval p0 p1 p2 p3 n i hi t

lemma split_n_getD_p0 (p0 p1 p2 p3 : Pt) (n i : ℕ) (hi : i < n) :
    ((split_cubic_into_n p0 p1 p2 p3 n).getD i default).p0 =
      cubicPoint ⟨p0, p1, p2, p3⟩ ((i : ℚ) / (n : ℚ)) := by
  have h := split_n_eval p0 p1 p2 p3 n i hi 0
  rw [cubicPoint_zero] at h
  simpa using h

lemma split_n_getD_p3 (p0 p1 p2 p3 : Pt) (n i : ℕ) (hi : i < n) :
    ((split_cubic_into_n p0 p1 p2 p3 n).getD i default).p3 =
      cubicPoint ⟨p0, p1, p2, p3⟩ (((i : ℚ) + 1) / (n : ℚ)) := by
  have h := split_n_eval p0 p1 p2 p3 n i hi 1
  rw [cubicPoint_one] at h
  exact h

/-- Consecutive pieces of the split share their boundary point exactly. -/
lemma split_n_contiguous (p0 p1 p2 p3 : Pt) (n m : ℕ) (hm : m + 1 < n) :
    ((split_cubic_into_n p0 p1 p2 p3 n).getD m default).p3 =
      ((split_cubic_into_n p0 p1 p2 p3 n).getD (m + 1) default).p0 := by
  rw [split_n_getD_p3 p0 p1 p2 p3 n m (by omega),
    split_n_getD_p0 p0 p1 p2 p3 n (m + 1) hm]
  push_cast
  ring_nf

/-! ### Soundness of the recursive bound test -/

lemma fits_true_tol_nonneg {fuel : ℕ} {p0 p1 p2 p3 : Pt} {tol : ℚ}
    (h : cubic_farthest_fit_inside fuel p0 p1 p2 p3 tol = true) : 0 ≤ tol := by
  match fuel with
  | 0 => simp [cubic_farthest_fit_inside] at h
  | fuel + 1 =>
    rw [cubic_farthest_fit_inside] at h
    by_cases hacc : (absLe p2 tol && absLe p1 tol) = true
    · have hacc2 : absLe p2 tol = true ∧ absLe p1 tol = true := by simpa using hacc
      exact ((absLe_iff _ _).1 hacc2.1).1
    · rw [if_neg hacc] at h
      by_cases hmid : (!(absLe ((p0 + (p1 + p2).scale 3 + p3).scale (1/8)) tol)) = true
      · rw [if_pos hmid] at h; exact absurd h (by simp)
      · rw [if_neg hmid] at h
        have hmid' : absLe ((p0 + (p1 + p2).scale 3 + p3).scale (1/8)) tol = true := by
          simpa using hmid
        exact ((absLe_iff _ _).1 hmid').1

lemma fits_false_of_neg {tol : ℚ} (htol : tol < 0) (fuel : ℕ) (p0 p1 p2 p3 : Pt) :
    cubic_farthest_fit_inside fuel p0 p1 p2 p3 tol = false := by
  have habs : ∀ z : Pt, absLe z tol = false := by
    intro z; simp [absLe, not_le.mpr htol]
  match fuel with
  | 0 => rfl
  | fuel + 1 => rw [cubic_farthest_fit_inside]; simp [habs]

/-- Soundness of `cubic_farthest_fit_inside`: when it answers `true` and
the two endpoints fit (the documented precondition), the whole curve fits
within the tolerance disc around the origin. -/
lemma fits_sound : ∀ (fuel : ℕ) (p0 p1 p2 p3 : Pt) (tol : ℚ),
    cubic_farthest_fit_inside fuel p0 p1 p2 p3 tol = true →
    p0.normSq ≤ tol ^ 2 → p3.normSq ≤ tol ^ 2 →
    ∀ t : ℚ, 0 ≤ t → t ≤ 1 →
      (cubicPoint ⟨p0, p1, p2, p3⟩ t).normSq ≤ tol ^ 2 := by
  intro fuel
  induction fuel with
  | zero => intro p0 p1 p2 p3 tol h; simp [cubic_farthest_fit_inside] at h
  | succ fuel ih =>
    intro p0 p1 p2 p3 tol h h0 h3 t ht0 ht1
    rw [cubic_farthest_fit_inside] at h
    by_cases hacc : (absLe p2 tol && absLe p1 tol) = true
    · obtain ⟨ha2, ha1⟩ : absLe p2 tol = true ∧ absLe p1 tol = true := by simpa using hacc
      exact normSq_cubicPoint_le _ t _ ht0 ht1 h0
        ((absLe_iff _ _).1 ha1).2 ((absLe_iff _ _).1 ha2).2 h3
    · rw [if_neg hacc] at h
      by_cases hmid : (!(absLe ((p0 + (p1 + p2).scale 3 + p3).scale (1/8)) tol)) = true
      · rw [if_pos hmid] at h; exact absurd h (by simp)
      · rw [if_neg hmid] at h
        have hmid' : absLe ((p0 + (p1 + p2).scale 3 + p3).scale (1/8)) tol = true := by
          simpa using hmid
        have hmidSq := ((absLe_iff _ _).1 hmid').2
        rw [Bool.and_eq_true] at h
        obtain ⟨hleft, hright⟩ := h
        rcases le_or_lt t (1/2) with hc | hc
        · have hres := ih p0 ((p0 + p1).scale (1/2))
            ((p0 + (p1 + p2).scale 3 + p3).scale (1/8) - (p3 + p2 - p1 - p0).scale (1/8))
            ((p0 + (p1 + p2).scale 3 + p3).scale (1/8)) tol hleft h0 hmidSq
            (2 * t) (by linarith) (by linarith)
          rw [cubicPoint_left_half] at hres
          have harg : 2 * t / 2 = t := by ring
          rwa [harg] at hres
        · have hres := ih ((p0 + (p1 + p2).scale 3 + p3).scale (1/8))
            ((p0 + (p1 + p2).scale 3 + p3).scale (1/8) + (p3 + p2 - p1 - p0).scale (1/8))
            ((p2 + p3).scale (1/2)) p3 tol hright hmidSq h3
            (2 * t - 1) (by linarith) (by linarith)
          rw [cubicPoint_right_half] at hres
          have harg : (2 * t - 1 + 1) / 2 = t := by ring
          rwa [harg] at hres

/-! ### Characterisation of the degree search -/

/-- A successful search returns the spline of the first satisfying `n`:
all earlier candidates in the scanned range failed. -/
lemma curveToQuadAux_ok_char (fuel : ℕ) (c : Cubic) (tol : ℚ) :
    ∀ (tries n0 : ℕ) (s : List Pt), curveToQuadAux fuel c tol tries n0 = Except.ok s →
      ∃ n, n0 ≤ n ∧ n < n0 + tries ∧ cubic_approx_spline fuel c n tol = some s ∧
        ∀ m, n0 ≤ m → m < n → cubic_approx_spline fuel c m tol = none := by
  intro tries
  induction tries with
  | zero => intro n0 s h; simp [curveToQuadAux] at h
  | succ tries ih =>
    intro n0 s h
    rw [curveToQuadAux] at h
    cases happ : cubic_approx_spline fuel c n0 tol with
    | some s' =>
      rw [happ] at h
      simp only [Except.ok.injEq] at h
      subst h
      exact ⟨n0, le_refl _, by omega, happ, fun m hm hm' => by omega⟩
    | none =>
      rw [happ] at h
      obtain ⟨n, h1, h2, h3, h4⟩ := ih (n0 + 1) s h
      refine ⟨n, by omega, by omega, h3, fun m hm hmn => ?_⟩
      rcases eq_or_lt_of_le hm with heq | hlt
      · rw [← heq]; exact happ
      · exact h4 m (by omega) hmn

lemma curveToQuadAux_error_payload (fuel : ℕ) (c : Cubic) (tol : ℚ) :
    ∀ (tries n0 : ℕ) (e : Cubic), curveToQuadAux fuel c tol tries n0 = Except.error e →
      e = c := by
  intro tries
  induction tries with
  | zero =>
    intro n0 e h
    simp only [curveToQuadAux, Except.error.injEq] at h
    exact h.symm
  | succ tries ih =>
    intro n0 e h
    rw [curveToQuadAux] at h
    cases happ : cubic_approx_spline fuel c n0 tol with
    | some s' => rw [happ] at h; exact absurd h (by simp)
    | none => rw [happ] at h; exact ih (n0 + 1) e h

/-- The search fails exactly when every candidate segment count in the
scanned range fails. -/
lemma curveToQuadAux_error_iff (fuel : ℕ) (c : Cubic) (tol : ℚ) :
    ∀ (tries n0 : ℕ), curveToQuadAux fuel c tol tries n0 = Except.error c ↔
      ∀ m, n0 ≤ m → m < n0 + tries → cubic_approx_spline fuel c m tol = none := by
  intro tries
  induction tries with
  | zero =>
    intro n0
    constructor
    · intro _ m hm hm'; omega
    · intro _; rfl
  | succ tries ih =>
    intro n0
    rw [curveToQuadAux]
    cases happ : cubic_approx_spline fuel c n0 tol with
    | some s' =>
      constructor
      · intro h; exact absurd h (by simp)
      · intro h
        have := h n0 (le_refl _) (by omega)
        rw [happ] at this; exact absurd this (by simp)
    | none =>
      rw [ih (n0 + 1)]
      constructor
      · intro h m hm hm'
        rcases eq_or_lt_of_le hm with heq | hlt
        · rw [← heq]; exact happ
        · exact h m (by omega) (by omega)
      · intro h m hm hm'
        exact h m (by omega) (by omega)

/-- The inner joint loop fails exactly when some (curve, tolerance) pair
of the family fails at this segment count. -/
lemma splinesForN_none_iff (fuel n : ℕ) :
    ∀ ps : List (Cubic × ℚ), splinesForN fuel n ps = none ↔
      ∃ p ∈ ps, cubic_approx_spline fuel p.1 n p.2 = none := by
  intro ps
  induction ps with
  | nil => simp [splinesForN]
  | cons p rest ih =>
    obtain ⟨c, e⟩ := p
    cases happ : cubic_approx_spline fuel c n e with
    | none =>
      simp only [splinesForN, happ, List.mem_cons]
      constructor
      · intro _; exact ⟨(c, e), Or.inl rfl, happ⟩
      · intro _; trivial
    | some s =>
      cases hrest : splinesForN fuel n rest with
      | none =>
        simp only [splinesForN, happ, hrest, List.mem_cons]
        constructor
        · intro _
          obtain ⟨p, hp, hp'⟩ := ih.mp hrest
          exact ⟨p, Or.inr hp, hp'⟩
        · intro _; trivial
      | some ss =>
        simp only [splinesForN, happ, hrest, List.mem_cons]
        constructor
        · intro h; exact absurd h (by simp)
        · rintro ⟨p, hp | hp, hp'⟩
          · rw [hp] at hp'; rw [happ] at hp'; exact absurd hp' (by simp)
          · have := ih.mpr ⟨p, hp, hp'⟩
            rw [hrest] at this; exact absurd this (by simp)

/-- Every spline delivered by the joint loop comes from some pair of the
family at this segment count. -/
lemma splinesForN_some_mem (fuel n : ℕ) :
    ∀ (ps : List (Cubic × ℚ)) (ss : List (List Pt)),
      splinesForN fuel n ps = some ss →
      ss.length = ps.length ∧
        ∀ s ∈ ss, ∃ p ∈ ps, cubic_approx_spline fuel p.1 n p.2 = some s := by
  intro ps
  induction ps with
  | nil =>
    intro ss h
    simp only [splinesForN, Option.some.injEq] at h
    subst h
    simp
  | cons p rest ih =>
    obtain ⟨c, e⟩ := p
    intro ss h
    rw [splinesForN] at h
    cases happ : cubic_approx_spline fuel c n e with
    | none => rw [happ] at h; exact absurd h (by simp)
    | some s =>
      rw [happ] at h
      cases hrest : splinesForN fuel n rest with
      | none => rw [hrest] at h; exact absurd h (by simp)
      | some ss' =>
        rw [hrest] at h
        simp only [Option.some.injEq] at h
        subst h
        obtain ⟨hlen, hmem⟩ := ih ss' hrest
        refine ⟨by simp [hlen], ?_⟩
        intro s' hs'
        rcases List.mem_cons.mp hs' with heq | htail
        · exact ⟨(c, e), List.mem_cons_self _ _, by rw [heq]; exact happ⟩
        · obtain ⟨p, hp, hp'⟩ := hmem s' htail
          exact ⟨p, List.mem_cons_of_mem _ hp, hp'⟩

lemma curvesToQuadAux_ok_char (fuel : ℕ) (ps : List (Cubic × ℚ)) (cs : List Cubic) :
    ∀ (tries n0 : ℕ) (sps : List (List Pt)),
      curvesToQuadAux fuel ps cs tries n0 = Except.ok sps →
      ∃ n, n0 ≤ n ∧ n < n0 + tries ∧ splinesForN fuel n ps = some sps := by
  intro tries
  induction tries with
  | zero => intro n0 sps h; simp [curvesToQuadAux] at h
  | succ tries ih =>
    intro n0 sps h
    rw [curvesToQuadAux] at h
    cases happ : splinesForN fuel n0 ps with
    | some ss =>
      rw [happ] at h
      simp only [Except.ok.injEq] at h
      subst h
      exact ⟨n0, le_refl _, by omega, happ⟩
    | none =>
      rw [happ] at h
      obtain ⟨n, h1, h2, h3⟩ := ih (n0 + 1) sps h
      exact ⟨n, by omega, by omega, h3⟩

lemma curvesToQuadAux_error_payload (fuel : ℕ) (ps : List (Cubic × ℚ)) (cs : List Cubic) :
    ∀ (tries n0 : ℕ) (es : List Cubic),
      curvesToQuadAux fuel ps cs tries n0 = Except.error es → es = cs := by
  intro tries
  induction tries with
  | zero =>
    intro n0 es h
    simp only [curvesToQuadAux, Except.error.injEq] at h
    exact h.symm
  | succ tries ih =>
    intro n0 es h
    rw [curvesToQuadAux] at h
    cases happ : splinesForN fuel n0 ps with
    | some ss => rw [happ] at h; exact absurd h (by simp)
    | none => rw [happ] at h; exact ih (n0 + 1) es h

lemma curvesToQuadAux_error_iff (fuel : ℕ) (ps : List (Cubic × ℚ)) (cs : List Cubic) :
    ∀ (tries n0 : ℕ), curvesToQuadAux fuel ps cs tries n0 = Except.error cs ↔
      ∀ m, n0 ≤ m → m < n0 + tries → splinesForN fuel m ps = none := by
  intro tries
  induction tries with
  | zero =>
    intro n0
    constructor
    · intro _ m hm hm'; omega
    · intro _; rfl
  | succ tries ih =>
    intro n0
    rw [curvesToQuadAux]
    cases happ : splinesForN fuel n0 ps with
    | some ss =>
      constructor
      · intro h; exact absurd h (by simp)
      · intro h
        have := h n0 (le_refl _) (by omega)
        rw [happ] at this; exact absurd this (by simp)
    | none =>
      rw [ih (n0 + 1)]
      constructor
      · intro h m hm hm'
        rcases eq_or_lt_of_le hm with heq | hlt
        · rw [← heq]; exact happ
        · exact h m (by omega) (by omega)
      · intro h m hm hm'
        exact h m (by omega) (by omega)

/-! ### Structure of the splines produced by the builder -/

/-- When the multi-segment loop succeeds it appends one control point per
remaining non-final segment, then the pinned end point. -/
lemma spline_loop_structure (tol : ℚ) (P3 : Pt) (n fuel : ℕ) :
    ∀ (rest : List Cubic) (i : ℕ) (nq1 q2 d1 : Pt) (spline sF : List Pt),
      spline_loop tol P3 n fuel rest i nq1 q2 d1 spline = some sF →
      ∃ qs : List Pt, sF = spline ++ qs ++ [P3] ∧ qs.length + 1 = max 1 rest.length := by
  intro rest
  induction rest with
  | nil =>
    intro i nq1 q2 d1 spline sF h
    rw [spline_loop] at h
    simp only [Option.some.injEq] at h
    exact ⟨[], by simp [← h], by simp⟩
  | cons c rest ih =>
    intro i nq1 q2 d1 spline sF h
    cases rest with
    | nil =>
      simp only [spline_loop] at h
      by_cases hc : (absLe (P3 - c.p3) tol &&
          cubic_farthest_fit_inside fuel d1 (q2 + (nq1 - q2).scale (2/3) - c.p1)
            (P3 + (nq1 - P3).scale (2/3) - c.p2) (P3 - c.p3) tol) = true
      · rw [if_pos hc] at h
        simp only [Option.some.injEq] at h
        exact ⟨[], by simp [← h], by simp⟩
      · rw [if_neg hc] at h
        exact absurd h (by simp)
    | cons c2 rest2 =>
      rw [spline_loop] at h
      by_cases hc : (absLe ((nq1 + cubic_approx_control c2 ((i : ℚ) / ((n : ℚ) - 1))).scale (1/2) - c.p3)
            tol &&
          cubic_farthest_fit_inside fuel d1
            (q2 + (nq1 - q2).scale (2/3) - c.p1)
            ((nq1 + cubic_approx_control c2 ((i : ℚ) / ((n : ℚ) - 1))).scale (1/2) +
               (nq1 - (nq1 + cubic_approx_control c2 ((i : ℚ) / ((n : ℚ) - 1))).scale (1/2)).scale (2/3)
               - c.p2)
            ((nq1 + cubic_approx_control c2 ((i : ℚ) / ((n : ℚ) - 1))).scale (1/2) - c.p3)
            tol) = true
      · rw [if_pos hc] at h
        obtain ⟨qs', hsF, hlen⟩ := ih (i + 1)
          (cubic_approx_control c2 ((i : ℚ) / ((n : ℚ) - 1)))
          ((nq1 + cubic_approx_control c2 ((i : ℚ) / ((n : ℚ) - 1))).scale (1/2))
          ((nq1 + cubic_approx_control c2 ((i : ℚ) / ((n : ℚ) - 1))).scale (1/2) - c.p3)
          (spline ++ [cubic_approx_control c2 ((i : ℚ) / ((n : ℚ) - 1))]) sF h
        refine ⟨cubic_approx_control c2 ((i : ℚ) / ((n : ℚ) - 1)) :: qs', ?_, ?_⟩
        · rw [hsF]; simp
        · simp only [List.length_cons] at hlen ⊢
          omega
      · rw [if_neg hc] at h
        exact absurd h (by simp)

/-- A successful run of the multi-segment loop requires a non-negative
tolerance (the very first delta check decides `0 <= tolerance`). -/
lemma spline_loop_cons_tol_nonneg {tol : ℚ} {P3 : Pt} {n fuel : ℕ} {c : Cubic}
    {rest : List Cubic} {i : ℕ} {nq1 q2 d1 : Pt} {spline sF : List Pt}
    (h : spline_loop tol P3 n fuel (c :: rest) i nq1 q2 d1 spline = some sF) :
    0 ≤ tol := by
  cases rest with
  | nil =>
    simp only [spline_loop] at h
    by_cases hc : (absLe (P3 - c.p3) tol &&
        cubic_farthest_fit_inside fuel d1 (q2 + (nq1 - q2).scale (2/3) - c.p1)
          (P3 + (nq1 - P3).scale (2/3) - c.p2) (P3 - c.p3) tol) = true
    · rw [Bool.and_eq_true] at hc
      exact ((absLe_iff _ _).1 hc.1).1
    · rw [if_neg hc] at h
      exact absurd h (by simp)
  | cons c2 rest2 =>
    rw [spline_loop] at h
    by_cases hc : (absLe ((nq1 + cubic_approx_control c2 ((i : ℚ) / ((n : ℚ) - 1))).scale (1/2) - c.p3)
          tol &&
        cubic_farthest_fit_inside fuel d1
          (q2 + (nq1 - q2).scale (2/3) - c.p1)
          ((nq1 + cubic_approx_control c2 ((i : ℚ) / ((n : ℚ) - 1))).scale (1/2) +
             (nq1 - (nq1 + cubic_approx_control c2 ((i : ℚ) / ((n : ℚ) - 1))).scale (1/2)).scale (2/3)
             - c.p2)
          ((nq1 + cubic_approx_control c2 ((i : ℚ) / ((n : ℚ) - 1))).scale (1/2) - c.p3)
          tol) = true
    · rw [Bool.and_eq_true] at hc
      exact ((absLe_iff _ _).1 hc.1).1
    · rw [if_neg hc] at h
      exact absurd h (by simp)

/-- Structure of any spline produced by `cubic_approx_spline`: `n` is at
least 1, the spline has `n + 2` points, and its ends are the source
cubic's ends, exactly. -/
lemma approx_some_structure (fuel : ℕ) (c : Cubic) (n : ℕ) (tol : ℚ) (s : List Pt)
    (h : cubic_approx_spline fuel c n tol = some s) :
    1 ≤ n ∧ s.length = n + 2 ∧ s.head? = some c.p0 ∧ s.getLast? = some c.p3 := by
  rw [cubic_approx_spline] at h
  by_cases hn1 : n = 1
  · rw [if_pos hn1] at h
    cases hint : calc_intersect c.p0 c.p1 c.p2 c.p3 with
    | none => rw [hint] at h; exact absurd h (by simp)
    | some q1 =>
      simp only [hint] at h
      by_cases hfit : cubic_farthest_fit_inside fuel 0
          ((c.p0 + (q1 - c.p0).scale (2/3)) - c.p1)
          ((c.p3 + (q1 - c.p3).scale (2/3)) - c.p2) 0 tol = true
      · rw [if_pos hfit] at h
        simp only [Option.some.injEq] at h
        subst hn1
        rw [← h]
        refine ⟨le_refl _, rfl, rfl, rfl⟩
      · rw [if_neg hfit] at h
        exact absurd h (by simp)
  · rw [if_neg hn1] at h
    cases hsplit : split_cubic_into_n c.p0 c.p1 c.p2 c.p3 n with
    | nil => rw [hsplit] at h; exact absurd h (by simp)
    | cons c0 rest =>
      rw [hsplit] at h
      obtain ⟨qs, hsF, hlen⟩ := spline_loop_structure tol c.p3 n fuel (c0 :: rest) 1
        (cubic_approx_control c0 0) c.p0 0 [c.p0, cubic_approx_control c0 0] s h
      have hsplen : n = rest.length + 1 := by
        have := split_n_length c.p0 c.p1 c.p2 c.p3 n
        rw [hsplit] at this
        simp only [List.length_cons] at this
        omega
      have hqs : qs.length + 1 = rest.length + 1 := by
        simpa using hlen
      refine ⟨by omega, ?_, ?_, ?_⟩
      · rw [hsF]
        simp only [List.length_append, List.length_cons, List.length_singleton,
          List.length_nil]
        omega
      · rw [hsF]; rfl
      · rw [hsF]
        rw [show [c.p0, cubic_approx_control c0 0] ++ qs ++ [c.p3] =
          ([c.p0, cubic_approx_control c0 0] ++ qs) ++ [c.p3] by simp]
        exact List.getLast?_concat _

/-! ### Per-segment tolerance guarantee of the multi-segment loop -/

/-- Loop invariant of the `n > 1` builder: when the loop succeeds, every
remaining segment's quadratic (with joints reconstructed as midpoints of
consecutive control points, ends pinned) stays within the tolerance of
that segment's sub-cubic, at every parameter of `[0, 1]`. -/
lemma spline_loop_sound (tol : ℚ) (P3 : Pt) (n fuel : ℕ) :
    ∀ (rest : List Cubic) (i : ℕ) (nq1 q2 d1 : Pt) (spline sF : List Pt),
      spline_loop tol P3 n fuel rest i nq1 q2 d1 spline = some sF →
      (∀ c l, rest = c :: l → d1 = q2 - c.p0) →
      d1.normSq ≤ tol ^ 2 →
      (∀ m, m + 1 < rest.length →
        (rest.getD m default).p3 = (rest.getD (m + 1) default).p0) →
      ∃ qs : List Pt,
        sF = spline ++ qs ++ [P3] ∧ qs.length + 1 = max 1 rest.length ∧
        ∀ m, m < rest.length → ∀ t : ℚ, 0 ≤ t → t ≤ 1 →
          (quadPoint
              (if m = 0 then q2
               else ((nq1 :: qs).getD (m - 1) 0 + (nq1 :: qs).getD m 0).scale (1/2))
              ((nq1 :: qs).getD m 0)
              (if m + 1 = rest.length then P3
               else ((nq1 :: qs).getD m 0 + (nq1 :: qs).getD (m + 1) 0).scale (1/2))
              t
            - cubicPoint (rest.getD m default) t).normSq ≤ tol ^ 2 := by
  intro rest
  induction rest with
  | nil =>
    intro i nq1 q2 d1 spline sF h _ _ _
    rw [spline_loop] at h
    simp only [Option.some.injEq] at h
    exact ⟨[], by simp [← h], by simp, fun m hm => absurd hm (by simp)⟩
  | cons c rest' ih =>
    intro i nq1 q2 d1 spline sF h hd hd1 hcont
    cases rest' with
    | nil =>
      simp only [spline_loop] at h
      split at h
      case isFalse => exact absurd h (by simp)
      case isTrue hcond =>
        rw [Bool.and_eq_true] at hcond
        obtain ⟨habs, hfit⟩ := hcond
        obtain ⟨htol, hend⟩ := (absLe_iff _ _).1 habs
        simp only [Option.some.injEq] at h
        refine ⟨[], by simp [← h], by simp, ?_⟩
        intro m hm t ht0 ht1
        simp only [List.length_cons, List.length_nil] at hm
        interval_cases m
        rw [if_pos (show 0 + 1 = [c].length by simp)]
        simp only [if_true, List.getD_cons_zero, List.getD_cons_succ]
        have hdc := hd c [] rfl
        rw [quad_sub_cubic, ← hdc]
        exact fits_sound fuel d1 _ _ _ tol hfit hd1 hend t ht0 ht1
    | cons c2 rest2 =>
      rw [spline_loop] at h
      split at h
      case isFalse => exact absurd h (by simp)
      case isTrue hcond =>
        rw [Bool.and_eq_true] at hcond
        obtain ⟨habs, hfit⟩ := hcond
        obtain ⟨htol, hend⟩ := (absLe_iff _ _).1 habs
        have hc23 : c.p3 = c2.p0 := by
          have := hcont 0 (by simp)
          simpa using this
        obtain ⟨qs', hsF, hlen', hprop⟩ :=
          ih (i + 1) (cubic_approx_control c2 ((i : ℚ) / ((n : ℚ) - 1)))
            ((nq1 + cubic_approx_control c2 ((i : ℚ) / ((n : ℚ) - 1))).scale (1/2))
            ((nq1 + cubic_approx_control c2 ((i : ℚ) / ((n : ℚ) - 1))).scale (1/2) - c.p3)
            (spline ++ [cubic_approx_control c2 ((i : ℚ) / ((n : ℚ) - 1))]) sF h
            (by
              intro c' l' heq
              have h1 : c' = c2 := by injection heq with h1 _; exact h1.symm
              rw [h1, hc23])
            hend
            (by
              intro m hm
              have := hcont (m + 1) (by simpa using Nat.succ_lt_succ hm)
              simpa using this)
        refine ⟨cubic_approx_control c2 ((i : ℚ) / ((n : ℚ) - 1)) :: qs', ?_, ?_, ?_⟩
        · rw [hsF]; simp
        · simp only [List.length_cons] at hlen' ⊢; omega
        · intro m hm t ht0 ht1
          cases m with
          | zero =>
            rw [if_pos rfl, if_neg (by simp only [List.length_cons]; omega)]
            simp only [List.getD_cons_zero, List.getD_cons_succ]
            have hdc := hd c (c2 :: rest2) rfl
            rw [quad_sub_cubic, ← hdc]
            exact fits_sound fuel d1 _ _ _ tol hfit hd1 hend t ht0 ht1
          | succ m' =>
            have hm' : m' < (c2 :: rest2).length := by
              simp only [List.length_cons] at hm ⊢; omega
            have hp := hprop m' hm' t ht0 ht1
            simp only [List.getD_cons_succ, List.length_cons, Nat.add_sub_cancel,
              Nat.succ_ne_zero, if_false] at hp ⊢
            cases m' with
            | zero =>
              rw [if_pos rfl] at hp
              simp only [List.getD_cons_zero, List.getD_cons_succ] at hp ⊢
              have hiff : (0 + 1 + 1 = rest2.length + 1 + 1) ↔ (0 + 1 = rest2.length + 1) := by
                omega
              rw [if_congr hiff rfl rfl]
              exact hp
            | succ m'' =>
              simp only [Nat.succ_ne_zero, if_false, Nat.add_sub_cancel,
                List.getD_cons_succ] at hp ⊢
              have hiff : (m'' + 1 + 1 + 1 = rest2.length + 1 + 1) ↔
                  (m'' + 1 + 1 = rest2.length + 1) := by omega
              rw [if_congr hiff rfl rfl]
              exact hp

lemma Pt.sub_self (a : Pt) : a - a = 0 := by ext <;> simp

/-- Soundness of `cubic_approx_spline`: any returned spline stays within
the tolerance of the source cubic, segment by segment, each quadratic
segment compared with its equal-parameter sub-interval of the cubic. -/
lemma approx_sound (fuel : ℕ) (c : Cubic) (n : ℕ) (tol : ℚ) (s : List Pt)
    (h : cubic_approx_spline fuel c n tol = some s) :
    0 ≤ tol ∧ ∀ m, m + 2 < s.length → ∀ t : ℚ, 0 ≤ t → t ≤ 1 →
      (segEval s m t -
          cubicPoint c (((m : ℚ) + t) / ((s.length : ℚ) - 2))).normSq ≤ tol ^ 2 := by
  rw [cubic_approx_spline] at h
  by_cases hn1 : n = 1
  · rw [if_pos hn1] at h
    cases hint : calc_intersect c.p0 c.p1 c.p2 c.p3 with
    | none => rw [hint] at h; exact absurd h (by simp)
    | some q1 =>
      simp only [hint] at h
      by_cases hfit : cubic_farthest_fit_inside fuel 0
          ((c.p0 + (q1 - c.p0).scale (2/3)) - c.p1)
          ((c.p3 + (q1 - c.p3).scale (2/3)) - c.p2) 0 tol = true
      · rw [if_pos hfit] at h
        simp only [Option.some.injEq] at h
        subst h
        refine ⟨fits_true_tol_nonneg hfit, ?_⟩
        intro m hm t ht0 ht1
        simp only [List.length_cons, List.length_nil] at hm
        have hm0 : m = 0 := by omega
        subst hm0
        have harg : (((0 : ℕ) : ℚ) + t) /
            ((([c.p0, q1, c.p3].length : ℕ) : ℚ) - 2) = t := by
          norm_num
        rw [harg]
        show (quadPoint c.p0 q1 c.p3 t - cubicPoint c t).normSq ≤ tol ^ 2
        rw [quad_sub_cubic]
        rw [show c.p0 - c.p0 = (0 : Pt) from Pt.sub_self _,
          show c.p3 - c.p3 = (0 : Pt) from Pt.sub_self _]
        exact fits_sound fuel 0 _ _ 0 tol hfit
          (by rw [normSq_zero]; positivity) (by rw [normSq_zero]; positivity) t ht0 ht1
      · rw [if_neg hfit] at h
        exact absurd h (by simp)
  · rw [if_neg hn1] at h
    cases hsplit : split_cubic_into_n c.p0 c.p1 c.p2 c.p3 n with
    | nil => rw [hsplit] at h; exact absurd h (by simp)
    | cons c0 rest =>
      rw [hsplit] at h
      have htol : 0 ≤ tol := spline_loop_cons_tol_nonneg h
      have hsplitlen : n = rest.length + 1 := by
        have := split_n_length c.p0 c.p1 c.p2 c.p3 n
        rw [hsplit] at this
        simp only [List.length_cons] at this
        omega
      have hceta : (⟨c.p0, c.p1, c.p2, c.p3⟩ : Cubic) = c := rfl
      have heval : ∀ m, m < n → ∀ t : ℚ,
          cubicPoint ((c0 :: rest).getD m default) t =
            cubicPoint c (((m : ℚ) + t) / (n : ℚ)) := by
        intro m hm t
        have := split_n_eval c.p0 c.p1 c.p2 c.p3 n m hm t
        rw [hsplit, hceta] at this
        exact this
      obtain ⟨qs, hsF, hlen, hprop⟩ := spline_loop_sound tol c.p3 n fuel
        (c0 :: rest) 1 (cubic_approx_control c0 0) c.p0 0
        [c.p0, cubic_approx_control c0 0] s h
        (by
          intro c' l' heq
          have h1 : c0 = c' := (List.cons.inj heq).1
          have hp0 : c'.p0 = c.p0 := by
            have hx := split_n_getD_p0 c.p0 c.p1 c.p2 c.p3 n 0 (by omega)
            rw [hsplit, hceta] at hx
            simp only [List.getD_cons_zero] at hx
            rw [← h1, hx]
            norm_num [cubicPoint_zero]
          rw [hp0, Pt.sub_self])
        (by rw [normSq_zero]; positivity)
        (by
          intro m hm
          have hmn : m + 1 < n := by
            simp only [List.length_cons] at hm; omega
          have := split_n_contiguous c.p0 c.p1 c.p2 c.p3 n m hmn
          rw [hsplit] at this
          exact this)
      have hqs : qs.length = rest.length := by
        simp only [List.length_cons] at hlen
        omega
      have hslen : s.length = n + 2 := by
        rw [hsF]
        simp only [List.length_append, List.length_cons, List.length_nil]
        omega
      refine ⟨htol, ?_⟩
      intro m hm t ht0 ht1
      have hmn : m < n := by omega
      have hp := hprop m (by simp only [List.length_cons]; omega) t ht0 ht1
      rw [heval m hmn t] at hp
      have hcastlen : ((s.length : ℚ) - 2) = (n : ℚ) := by
        rw [hslen]; push_cast; ring
      rw [hcastlen]
      -- translate the loop's joint expressions into `segEval` over `s`
      have hs' : s = c.p0 :: ((cubic_approx_control c0 0 :: qs) ++ [c.p3]) := by
        rw [hsF]; simp
      have hctl_len : (cubic_approx_control c0 0 :: qs).length = n := by
        simp only [List.length_cons]; omega
      have hgetD : ∀ k, k < n → s.getD (k + 1) 0 =
          (cubic_approx_control c0 0 :: qs).getD k 0 := by
        intro k hk
        rw [hs', List.getD_cons_succ, List.getD_append _ _ _ _ (by omega)]
      have hgetD0 : s.getD 0 0 = c.p0 := by rw [hs']; rfl
      have hgetDlast : s.getD (n + 1) 0 = c.p3 := by
        rw [hs', List.getD_cons_succ, List.getD_append_right _ _ _ _ (by omega)]
        rw [hctl_len]
        simp
      rw [segEval, hslen]
      simp only [show n + 2 - 2 = n from rfl, show n + 2 - 1 = n + 1 from rfl]
      have hjl : (if m = 0 then s.getD 0 0
          else (s.getD m 0 + s.getD (m + 1) 0).scale (1/2)) =
          (if m = 0 then c.p0
          else ((cubic_approx_control c0 0 :: qs).getD (m - 1) 0 +
              (cubic_approx_control c0 0 :: qs).getD m 0).scale (1/2)) := by
        by_cases hm0 : m = 0
        · rw [if_pos hm0, if_pos hm0, hgetD0]
        · rw [if_neg hm0, if_neg hm0]
          obtain ⟨m', rfl⟩ : ∃ m', m = m' + 1 := ⟨m - 1, by omega⟩
          rw [hgetD m' (by omega), hgetD (m' + 1) hmn]
          rfl
      have hjr : (if m + 1 = n then s.getD (n + 1) 0
          else (s.getD (m + 1) 0 + s.getD (m + 2) 0).scale (1/2)) =
          (if m + 1 = (c0 :: rest).length then c.p3
          else ((cubic_approx_control c0 0 :: qs).getD m 0 +
              (cubic_approx_control c0 0 :: qs).getD (m + 1) 0).scale (1/2)) := by
        have hlencr : (c0 :: rest).length = n := by
          simp only [List.length_cons]; omega
        rw [hlencr]
        by_cases hm1 : m + 1 = n
        · rw [if_pos hm1, if_pos hm1, hgetDlast]
        · rw [if_neg hm1, if_neg hm1, hgetD m hmn,
            show m + 2 = (m + 1) + 1 from rfl, hgetD (m + 1) (by omega)]
      rw [hjl, hjr, hgetD m hmn]
      exact hp

/-! ### Literal-level evaluation lemmas

Mathlib's rational instances do not kernel-reduce, so concrete runs of
the engine are evaluated by rewriting with these component lemmas. -/

lemma Pt.mk_add_mk (a b c d : ℚ) : (⟨a, b⟩ : Pt) + ⟨c, d⟩ = ⟨a + c, b + d⟩ := rfl
lemma Pt.mk_sub_mk (a b c d : ℚ) : (⟨a, b⟩ : Pt) - ⟨c, d⟩ = ⟨a - c, b - d⟩ := rfl
lemma Pt.mk_mul_mk (a b c d : ℚ) :
    (⟨a, b⟩ : Pt) * ⟨c, d⟩ = ⟨a * c - b * d, a * d + b * c⟩ := rfl
lemma Pt.mk_scale (a b s : ℚ) : (⟨a, b⟩ : Pt).scale s = ⟨a * s, b * s⟩ := rfl
lemma Pt.mk_normSq (a b : ℚ) : (⟨a, b⟩ : Pt).normSq = a ^ 2 + b ^ 2 := rfl
lemma Pt.zero_def : (0 : Pt) = ⟨0, 0⟩ := rfl
lemma Pt.J_def : Pt.J = ⟨0, 1⟩ := rfl
lemma Pt.zero_add_pt (a : Pt) : 0 + a = a := by ext <;> simp
lemma Pt.add_zero_pt (a : Pt) : a + 0 = a := by ext <;> simp
lemma Pt.sub_zero_pt (a : Pt) : a - 0 = a := by ext <;> simp
lemma Pt.zero_sub_pt (a : Pt) : 0 - a = ⟨-a.re, -a.im⟩ := by ext <;> simp
lemma Pt.mk_re (a b : ℚ) : (⟨a, b⟩ : Pt).re = a := rfl
lemma Pt.mk_im (a b : ℚ) : (⟨a, b⟩ : Pt).im = b := rfl

/-! ### A concrete run: the S-like arc of the spec's scenario

The cubic `(0,0)-(0,100)-(100,100)-(100,0)` with tolerance 5.  Its start
and end tangents are parallel (both vertical), so the `n = 1` candidate
cannot be constructed, and the search settles at `n = 2`. -/

lemma approx1_s_arc :
    cubic_approx_spline 8 ⟨⟨0,0⟩, ⟨0,100⟩, ⟨100,100⟩, ⟨100,0⟩⟩ 1 5 = none := by
  norm_num [cubic_approx_spline, calc_intersect, dot, Pt.mk_sub_mk, Pt.mk_mul_mk,
    Pt.J_def, Pt.conj]

lemma split2_s_arc : split_cubic_into_n ⟨0,0⟩ ⟨0,100⟩ ⟨100,100⟩ ⟨100,0⟩ 2 =
    [⟨⟨0,0⟩, ⟨0,50⟩, ⟨25,75⟩, ⟨50,75⟩⟩, ⟨⟨50,75⟩, ⟨75,75⟩, ⟨100,50⟩, ⟨100,0⟩⟩] := by
  norm_num [split_cubic_into_n, split_cubic_into_two, Pt.mk_add_mk, Pt.mk_sub_mk,
    Pt.mk_scale]

lemma ctrl0_s_arc : cubic_approx_control ⟨⟨0,0⟩, ⟨0,50⟩, ⟨25,75⟩, ⟨50,75⟩⟩ 0 = ⟨0,75⟩ := by
  norm_num [cubic_approx_control, Pt.mk_add_mk, Pt.mk_sub_mk, Pt.mk_scale]

lemma fits_seg1_s_arc :
    cubic_farthest_fit_inside 8 0 ⟨0,0⟩ ⟨-(25/3),0⟩ ⟨0,0⟩ 5 = true := by
  rw [cubic_farthest_fit_inside]
  norm_num [absLe, Pt.mk_add_mk, Pt.mk_sub_mk, Pt.mk_scale, Pt.mk_normSq,
    Pt.zero_add_pt, Pt.add_zero_pt, Pt.sub_zero_pt, Pt.zero_sub_pt, Pt.mk_re, Pt.mk_im,
    normSq_zero]
  constructor <;>
    (rw [cubic_farthest_fit_inside];
     norm_num [absLe, Pt.mk_add_mk, Pt.mk_sub_mk, Pt.mk_scale, Pt.mk_normSq,
       Pt.zero_add_pt, Pt.add_zero_pt, Pt.sub_zero_pt, Pt.zero_sub_pt, Pt.mk_re, Pt.mk_im,
       normSq_zero])

lemma fits_seg2_s_arc :
    cubic_farthest_fit_inside 8 ⟨0,0⟩ ⟨25/3,0⟩ ⟨0,0⟩ ⟨0,0⟩ 5 = true := by
  rw [cubic_farthest_fit_inside]
  norm_num [absLe, Pt.mk_add_mk, Pt.mk_sub_mk, Pt.mk_scale, Pt.mk_normSq,
    Pt.zero_add_pt, Pt.add_zero_pt, Pt.sub_zero_pt, Pt.zero_sub_pt, Pt.mk_re, Pt.mk_im,
    normSq_zero]
  constructor <;>
    (rw [cubic_farthest_fit_inside];
     norm_num [absLe, Pt.mk_add_mk, Pt.mk_sub_mk, Pt.mk_scale, Pt.mk_normSq,
       Pt.zero_add_pt, Pt.add_zero_pt, Pt.sub_zero_pt, Pt.zero_sub_pt, Pt.mk_re, Pt.mk_im,
       normSq_zero])

lemma approx2_s_arc :
    cubic_approx_spline 8 ⟨⟨0,0⟩, ⟨0,100⟩, ⟨100,100⟩, ⟨100,0⟩⟩ 2 5 =
      some [⟨0,0⟩, ⟨0,75⟩, ⟨100,75⟩, ⟨100,0⟩] := by
  rw [cubic_approx_spline, if_neg (by norm_num)]
  simp only [split2_s_arc, ctrl0_s_arc]
  rw [spline_loop]
  norm_num [cubic_approx_control, absLe, Pt.mk_add_mk, Pt.mk_sub_mk, Pt.mk_scale,
    Pt.mk_normSq, Pt.zero_add_pt, Pt.add_zero_pt, Pt.sub_zero_pt, Pt.zero_sub_pt,
    Pt.mk_re, Pt.mk_im, normSq_zero]
  refine ⟨fits_seg1_s_arc, ?_⟩
  rw [spline_loop]
  norm_num [cubic_approx_control, absLe, Pt.mk_add_mk, Pt.mk_sub_mk, Pt.mk_scale,
    Pt.mk_normSq, Pt.zero_add_pt, Pt.add_zero_pt, Pt.sub_zero_pt, Pt.zero_sub_pt,
    Pt.mk_re, Pt.mk_im, normSq_zero]
  refine ⟨fits_seg2_s_arc, ?_⟩
  rw [spline_loop]
  norm_num

lemma run_s_arc :
    curve_to_quadratic 8 ⟨⟨0,0⟩, ⟨0,100⟩, ⟨100,100⟩, ⟨100,0⟩⟩ 5 =
      Except.ok [⟨0,0⟩, ⟨0,75⟩, ⟨100,75⟩, ⟨100,0⟩] := by
  rw [curve_to_quadratic, show MAX_N = 100 from rfl]
  rw [curveToQuadAux]
  simp only [approx1_s_arc]
  rw [curveToQuadAux]
  norm_num [approx2_s_arc]

lemma splines1_s_arc_pair :
    splinesForN 8 1 [(⟨⟨0,0⟩, ⟨0,100⟩, ⟨100,100⟩, ⟨100,0⟩⟩, 5),
      (⟨⟨0,0⟩, ⟨0,100⟩, ⟨100,100⟩, ⟨100,0⟩⟩, 5)] = none := by
  rw [splinesForN]
  simp only [approx1_s_arc]

lemma splines2_s_arc_pair :
    splinesForN 8 2 [(⟨⟨0,0⟩, ⟨0,100⟩, ⟨100,100⟩, ⟨100,0⟩⟩, 5),
      (⟨⟨0,0⟩, ⟨0,100⟩, ⟨100,100⟩, ⟨100,0⟩⟩, 5)] =
    some [[⟨0,0⟩, ⟨0,75⟩, ⟨100,75⟩, ⟨100,0⟩], [⟨0,0⟩, ⟨0,75⟩, ⟨100,75⟩, ⟨100,0⟩]] := by
  rw [splinesForN]
  simp only [approx2_s_arc]
  rw [splinesForN]
  simp only [approx2_s_arc]
  rw [splinesForN]

lemma run_s_arc_pair :
    curves_to_quadratic 8
      [⟨⟨0,0⟩, ⟨0,100⟩, ⟨100,100⟩, ⟨100,0⟩⟩, ⟨⟨0,0⟩, ⟨0,100⟩, ⟨100,100⟩, ⟨100,0⟩⟩]
      [5, 5] =
    Except.ok [[⟨0,0⟩, ⟨0,75⟩, ⟨100,75⟩, ⟨100,0⟩],
      [⟨0,0⟩, ⟨0,75⟩, ⟨100,75⟩, ⟨100,0⟩]] := by
  rw [curves_to_quadratic, show MAX_N = 100 from rfl]
  simp only [List.zip_cons_cons, List.zip_nil_right]
  rw [curvesToQuadAux]
  simp only [splines1_s_arc_pair]
  rw [curvesToQuadAux]
  norm_num [splines2_s_arc_pair]

/-! ### The claims -/

/-- C1: for every cubic curve and tolerance for which `curve_to_quadratic`
returns a spline rather than raising, the Euclidean distance between the
source cubic and the returned spline at matching parametric positions —
each quadratic segment matched to its equal-parameter sub-interval of the
cubic — is at most the tolerance at every parameter of `[0, 1]` (stated
in exact arithmetic as squared distance at most squared tolerance, with
the tolerance non-negative). -/
theorem curve_to_quadratic_within_tolerance (fuel : ℕ) (curve : Cubic) (max_err : ℚ)
    (s : List Pt) (h : curve_to_quadratic fuel curve max_err = Except.ok s) :
    0 ≤ max_err ∧ ∀ m, m + 2 < s.length → ∀ t : ℚ, 0 ≤ t → t ≤ 1 →
      (segEval s m t -
          cubicPoint curve (((m : ℚ) + t) / ((s.length : ℚ) - 2))).normSq ≤
        max_err ^ 2 := by
  obtain ⟨n, _, _, h3, _⟩ := curveToQuadAux_ok_char fuel curve max_err MAX_N 1 s h
  exact approx_sound fuel curve n max_err s h3

/-- Witness for C1 at the S-like arc with tolerance 5 (segment 0, t=1/2). -/
theorem curve_to_quadratic_within_tolerance_witness :
    (0 : ℚ) ≤ 5 ∧
    (segEval [⟨0,0⟩, ⟨0,75⟩, ⟨100,75⟩, ⟨100,0⟩] 0 (1/2) -
        cubicPoint ⟨⟨0,0⟩, ⟨0,100⟩, ⟨100,100⟩, ⟨100,0⟩⟩
          ((((0 : ℕ) : ℚ) + 1/2) /
            ((([⟨0,0⟩, ⟨0,75⟩, ⟨100,75⟩, ⟨100,0⟩] : List Pt).length : ℚ) - 2))).normSq ≤
      5 ^ 2 := by
  have h := curve_to_quadratic_within_tolerance 8 ⟨⟨0,0⟩, ⟨0,100⟩, ⟨100,100⟩, ⟨100,0⟩⟩ 5
    [⟨0,0⟩, ⟨0,75⟩, ⟨100,75⟩, ⟨100,0⟩] run_s_arc
  exact ⟨h.1, h.2 0 (by simp) (1/2) (by norm_num) (by norm_num)⟩

/-- C2: the search returns the spline of the first (smallest) satisfying
segment count: no smaller count produces a candidate passing the check. -/
theorem curve_to_quadratic_minimal_segments (fuel : ℕ) (curve : Cubic) (max_err : ℚ)
    (s : List Pt) (h : curve_to_quadratic fuel curve max_err = Except.ok s) :
    ∃ n, 1 ≤ n ∧ n ≤ MAX_N ∧ cubic_approx_spline fuel curve n max_err = some s ∧
      s.length = n + 2 ∧
      ∀ m, 1 ≤ m → m < n → cubic_approx_spline fuel curve m max_err = none := by
  obtain ⟨n, h1, h2, h3, h4⟩ := curveToQuadAux_ok_char fuel curve max_err MAX_N 1 s h
  obtain ⟨_, hlen, _, _⟩ := approx_some_structure fuel curve n max_err s h3
  exact ⟨n, h1, by omega, h3, hlen, h4⟩

/-- Witness for C2: the S-like arc needs exactly 2 segments; count 1 fails. -/
theorem curve_to_quadratic_minimal_segments_witness :
    ∃ n, 1 ≤ n ∧ n ≤ MAX_N ∧
      cubic_approx_spline 8 ⟨⟨0,0⟩, ⟨0,100⟩, ⟨100,100⟩, ⟨100,0⟩⟩ n 5 =
        some [⟨0,0⟩, ⟨0,75⟩, ⟨100,75⟩, ⟨100,0⟩] ∧
      ([⟨0,0⟩, ⟨0,75⟩, ⟨100,75⟩, ⟨100,0⟩] : List Pt).length = n + 2 ∧
      ∀ m, 1 ≤ m → m < n →
        cubic_approx_spline 8 ⟨⟨0,0⟩, ⟨0,100⟩, ⟨100,100⟩, ⟨100,0⟩⟩ m 5 = none :=
  curve_to_quadratic_minimal_segments 8 ⟨⟨0,0⟩, ⟨0,100⟩, ⟨100,100⟩, ⟨100,0⟩⟩ 5
    [⟨0,0⟩, ⟨0,75⟩, ⟨100,75⟩, ⟨100,0⟩] run_s_arc

/-- C3: `curve_to_quadratic` fails exactly when no segment count in
`[1, 100]` yields a satisfying spline, and `curves_to_quadratic` fails
exactly when every common count in `[1, 100]` is defeated by some
(curve, tolerance) pair; the error carries the offending curve(s), and
there is no other (partial) outcome of the `Except` result. -/
theorem approx_not_found_characterisation (fuel : ℕ) (curve : Cubic) (max_err : ℚ)
    (curves : List Cubic) (max_errors : List ℚ)
    (_hlen : curves.length = max_errors.length) :
    (curve_to_quadratic fuel curve max_err = Except.error curve ↔
      ∀ n, 1 ≤ n → n ≤ MAX_N → cubic_approx_spline fuel curve n max_err = none) ∧
    (∀ e, curve_to_quadratic fuel curve max_err = Except.error e → e = curve) ∧
    (curves_to_quadratic fuel curves max_errors = Except.error curves ↔
      ∀ n, 1 ≤ n → n ≤ MAX_N →
        ∃ p ∈ curves.zip max_errors, cubic_approx_spline fuel p.1 n p.2 = none) ∧
    (∀ es, curves_to_quadratic fuel curves max_errors = Except.error es →
      es = curves) := by
  have hM : MAX_N = 100 := rfl
  refine ⟨?_, ?_, ?_, ?_⟩
  · rw [curve_to_quadratic, curveToQuadAux_error_iff]
    constructor
    · intro h n h1 h2
      exact h n h1 (by omega)
    · intro h n h1 h2
      exact h n h1 (by omega)
  · intro e he
    exact curveToQuadAux_error_payload fuel curve max_err MAX_N 1 e he
  · rw [curves_to_quadratic, curvesToQuadAux_error_iff]
    constructor
    · intro h n h1 h2
      exact (splinesForN_none_iff fuel n _).1 (h n h1 (by omega))
    · intro h n h1 h2
      exact (splinesForN_none_iff fuel n _).2 (h n h1 (by omega))
  · intro es hes
    exact curvesToQuadAux_error_payload fuel _ curves MAX_N 1 es hes

/-- Witness for C3 at a concrete instance (empty family; a degenerate
single curve with zero tolerance). -/
theorem approx_not_found_characterisation_witness :
    (curve_to_quadratic 1 ⟨⟨0,0⟩, ⟨0,0⟩, ⟨0,0⟩, ⟨0,0⟩⟩ 0 =
        Except.error ⟨⟨0,0⟩, ⟨0,0⟩, ⟨0,0⟩, ⟨0,0⟩⟩ ↔
      ∀ n, 1 ≤ n → n ≤ MAX_N →
        cubic_approx_spline 1 ⟨⟨0,0⟩, ⟨0,0⟩, ⟨0,0⟩, ⟨0,0⟩⟩ n 0 = none) ∧
    (∀ e, curve_to_quadratic 1 ⟨⟨0,0⟩, ⟨0,0⟩, ⟨0,0⟩, ⟨0,0⟩⟩ 0 = Except.error e →
      e = ⟨⟨0,0⟩, ⟨0,0⟩, ⟨0,0⟩, ⟨0,0⟩⟩) ∧
    (curves_to_quadratic 1 [] [] = Except.error [] ↔
      ∀ n, 1 ≤ n → n ≤ MAX_N →
        ∃ p ∈ ([] : List Cubic).zip ([] : List ℚ),
          cubic_approx_spline 1 p.1 n p.2 = none) ∧
    (∀ es, curves_to_quadratic 1 [] [] = Except.error es → es = []) :=
  approx_not_found_characterisation 1 ⟨⟨0,0⟩, ⟨0,0⟩, ⟨0,0⟩, ⟨0,0⟩⟩ 0 [] [] rfl

/-- C4: whenever `curves_to_quadratic` returns normally on a family with
matching tolerance list, every returned spline has the same length: all
are built at the one common segment count `n` that first succeeded, so
each has `n + 2` points. -/
theorem curves_to_quadratic_uniform_length (fuel : ℕ) (curves : List Cubic)
    (max_errors : List ℚ) (splines : List (List Pt))
    (hlen : curves.length = max_errors.length)
    (h : curves_to_quadratic fuel curves max_errors = Except.ok splines) :
    splines.length = curves.length ∧
    ∃ n, 1 ≤ n ∧ n ≤ MAX_N ∧
      splinesForN fuel n (curves.zip max_errors) = some splines ∧
      (∀ s ∈ splines, s.length = n + 2) ∧
      ∀ s1 ∈ splines, ∀ s2 ∈ splines, s1.length = s2.length := by
  rw [curves_to_quadratic] at h
  obtain ⟨n, h1, h2, h3⟩ := curvesToQuadAux_ok_char fuel _ curves MAX_N 1 splines h
  obtain ⟨hlen', hmem⟩ := splinesForN_some_mem fuel n _ splines h3
  have hseg : ∀ s ∈ splines, s.length = n + 2 := by
    intro s hs
    obtain ⟨p, _, hp'⟩ := hmem s hs
    exact (approx_some_structure fuel p.1 n p.2 s hp').2.1
  refine ⟨?_, n, h1, by omega, h3, hseg, ?_⟩
  · rw [hlen', List.length_zip, hlen, min_self]
  · intro s1 hs1 s2 hs2
    rw [hseg s1 hs1, hseg s2 hs2]

/-- Witness for C4: a two-curve family (two copies of the S-like arc). -/
theorem curves_to_quadratic_uniform_length_witness :
    ([[⟨0,0⟩, ⟨0,75⟩, ⟨100,75⟩, ⟨100,0⟩], [⟨0,0⟩, ⟨0,75⟩, ⟨100,75⟩, ⟨100,0⟩]] :
        List (List Pt)).length =
      ([⟨⟨0,0⟩, ⟨0,100⟩, ⟨100,100⟩, ⟨100,0⟩⟩, ⟨⟨0,0⟩, ⟨0,100⟩, ⟨100,100⟩, ⟨100,0⟩⟩] :
        List Cubic).length ∧
    ∃ n, 1 ≤ n ∧ n ≤ MAX_N ∧
      splinesForN 8 n
        (([⟨⟨0,0⟩, ⟨0,100⟩, ⟨100,100⟩, ⟨100,0⟩⟩, ⟨⟨0,0⟩, ⟨0,100⟩, ⟨100,100⟩, ⟨100,0⟩⟩] :
            List Cubic).zip ([5, 5] : List ℚ)) =
        some [[⟨0,0⟩, ⟨0,75⟩, ⟨100,75⟩, ⟨100,0⟩], [⟨0,0⟩, ⟨0,75⟩, ⟨100,75⟩, ⟨100,0⟩]] ∧
      (∀ s ∈ ([[⟨0,0⟩, ⟨0,75⟩, ⟨100,75⟩, ⟨100,0⟩],
          [⟨0,0⟩, ⟨0,75⟩, ⟨100,75⟩, ⟨100,0⟩]] : List (List Pt)), s.length = n + 2) ∧
      ∀ s1 ∈ ([[⟨0,0⟩, ⟨0,75⟩, ⟨100,75⟩, ⟨100,0⟩],
          [⟨0,0⟩, ⟨0,75⟩, ⟨100,75⟩, ⟨100,0⟩]] : List (List Pt)),
        ∀ s2 ∈ ([[⟨0,0⟩, ⟨0,75⟩, ⟨100,75⟩, ⟨100,0⟩],
            [⟨0,0⟩, ⟨0,75⟩, ⟨100,75⟩, ⟨100,0⟩]] : List (List Pt)),
          s1.length = s2.length :=
  curves_to_quadratic_uniform_length 8
    [⟨⟨0,0⟩, ⟨0,100⟩, ⟨100,100⟩, ⟨100,0⟩⟩, ⟨⟨0,0⟩, ⟨0,100⟩, ⟨100,100⟩, ⟨100,0⟩⟩]
    [5, 5]
    [[⟨0,0⟩, ⟨0,75⟩, ⟨100,75⟩, ⟨100,0⟩], [⟨0,0⟩, ⟨0,75⟩, ⟨100,75⟩, ⟨100,0⟩]]
    rfl run_s_arc_pair

/-- C5: every spline returned by `curve_to_quadratic` for `n` quadratic
segments has exactly `n + 2` points (3 points when `n = 1`), with first
point equal to the source cubic's start and last point equal to its end,
exactly. -/
theorem curve_to_quadratic_point_count_endpoints (fuel : ℕ) (curve : Cubic)
    (max_err : ℚ) (s : List Pt)
    (h : curve_to_quadratic fuel curve max_err = Except.ok s) :
    ∃ n, 1 ≤ n ∧ n ≤ MAX_N ∧ cubic_approx_spline fuel curve n max_err = some s ∧
      s.length = n + 2 ∧ (n = 1 → s.length = 3) ∧
      s.head? = some curve.p0 ∧ s.getLast? = some curve.p3 := by
  obtain ⟨n, h1, h2, h3, _⟩ := curveToQuadAux_ok_char fuel curve max_err MAX_N 1 s h
  obtain ⟨hn1, hlen, hhead, hlast⟩ := approx_some_structure fuel curve n max_err s h3
  exact ⟨n, hn1, by omega, h3, hlen, fun hn => by rw [hlen, hn], hhead, hlast⟩

/-- Witness for C5 at the S-like arc. -/
theorem curve_to_quadratic_point_count_endpoints_witness :
    ∃ n, 1 ≤ n ∧ n ≤ MAX_N ∧
      cubic_approx_spline 8 ⟨⟨0,0⟩, ⟨0,100⟩, ⟨100,100⟩, ⟨100,0⟩⟩ n 5 =
        some [⟨0,0⟩, ⟨0,75⟩, ⟨100,75⟩, ⟨100,0⟩] ∧
      ([⟨0,0⟩, ⟨0,75⟩, ⟨100,75⟩, ⟨100,0⟩] : List Pt).length = n + 2 ∧
      (n = 1 → ([⟨0,0⟩, ⟨0,75⟩, ⟨100,75⟩, ⟨100,0⟩] : List Pt).length = 3) ∧
      ([⟨0,0⟩, ⟨0,75⟩, ⟨100,75⟩, ⟨100,0⟩] : List Pt).head? =
        some (⟨⟨0,0⟩, ⟨0,100⟩, ⟨100,100⟩, ⟨100,0⟩⟩ : Cubic).p0 ∧
      ([⟨0,0⟩, ⟨0,75⟩, ⟨100,75⟩, ⟨100,0⟩] : List Pt).getLast? =
        some (⟨⟨0,0⟩, ⟨0,100⟩, ⟨100,100⟩, ⟨100,0⟩⟩ : Cubic).p3 :=
  curve_to_quadratic_point_count_endpoints 8 ⟨⟨0,0⟩, ⟨0,100⟩, ⟨100,100⟩, ⟨100,0⟩⟩ 5
    [⟨0,0⟩, ⟨0,75⟩, ⟨100,75⟩, ⟨100,0⟩] run_s_arc

/-- C6 counterexample: on the cubic `(0,0)-(0,100)-(100,100)-(100,0)` with
tolerance 5 the code returns a spline of 4 points — not 3 as claimed —
because the parallel end tangents make the single-quadratic construction
impossible. -/
theorem s_arc_counterexample :
    curve_to_quadratic 8 ⟨⟨0,0⟩, ⟨0,100⟩, ⟨100,100⟩, ⟨100,0⟩⟩ 5 =
      Except.ok [⟨0,0⟩, ⟨0,75⟩, ⟨100,75⟩, ⟨100,0⟩] ∧
    ([⟨0,0⟩, ⟨0,75⟩, ⟨100,75⟩, ⟨100,0⟩] : List Pt).length ≠ 3 :=
  ⟨run_s_arc, by simp⟩

/-- C6 amended: on that cubic with tolerance 5, the `n = 1` candidate is
not constructible (parallel tangents) and the search settles at `n = 2`,
returning the 4-point spline `[(0,0), (0,75), (100,75), (100,0)]`. -/
theorem s_arc_amended_run :
    cubic_approx_spline 8 ⟨⟨0,0⟩, ⟨0,100⟩, ⟨100,100⟩, ⟨100,0⟩⟩ 1 5 = none ∧
    curve_to_quadratic 8 ⟨⟨0,0⟩, ⟨0,100⟩, ⟨100,100⟩, ⟨100,0⟩⟩ 5 =
      Except.ok [⟨0,0⟩, ⟨0,75⟩, ⟨100,75⟩, ⟨100,0⟩] ∧
    ([⟨0,0⟩, ⟨0,75⟩, ⟨100,75⟩, ⟨100,0⟩] : List Pt).length = 2 + 2 :=
  ⟨approx1_s_arc, run_s_arc, by simp⟩

/-- C7: for a cubic whose start tangent `P1 - P0` and end tangent
`P2 - P3` are exactly parallel (zero cross product), the tangent-line
intersection yields no point, the `n = 1` builder returns `none` before
any error evaluation, and any returned spline never has exactly 3
points. -/
theorem parallel_tangents_never_single_segment (fuel : ℕ) (curve : Cubic)
    (max_err : ℚ) (s : List Pt)
    (hpar : cross (curve.p1 - curve.p0) (curve.p3 - curve.p2) = 0) :
    calc_intersect curve.p0 curve.p1 curve.p2 curve.p3 = none ∧
    cubic_approx_spline fuel curve 1 max_err = none ∧
    (curve_to_quadratic fuel curve max_err = Except.ok s → s.length ≠ 3) := by
  have hdot : dot ((curve.p1 - curve.p0) * Pt.J) (curve.p3 - curve.p2) = 0 := by
    have hd : dot ((curve.p1 - curve.p0) * Pt.J) (curve.p3 - curve.p2) =
        cross (curve.p1 - curve.p0) (curve.p3 - curve.p2) := by
      simp only [dot, cross, Pt.mul_re, Pt.mul_im, Pt.conj_re, Pt.conj_im,
        Pt.sub_re, Pt.sub_im, Pt.J_def, Pt.mk_re, Pt.mk_im]
      ring
    rw [hd, hpar]
  have hint : calc_intersect curve.p0 curve.p1 curve.p2 curve.p3 = none := by
    rw [calc_intersect, if_pos hdot]
  have happ : cubic_approx_spline fuel curve 1 max_err = none := by
    rw [cubic_approx_spline, if_pos rfl]
    simp only [hint]
  refine ⟨hint, happ, ?_⟩
  intro h
  obtain ⟨n, _, _, h3, _⟩ := curveToQuadAux_ok_char fuel curve max_err MAX_N 1 s h
  obtain ⟨hn1, hlen, _, _⟩ := approx_some_structure fuel curve n max_err s h3
  have hne1 : n ≠ 1 := by
    intro hn
    rw [hn, happ] at h3
    exact absurd h3 (by simp)
  rw [hlen]
  omega

/-- Witness for C7 at the S-like arc (vertical tangents at both ends). -/
theorem parallel_tangents_never_single_segment_witness :
    calc_intersect ⟨0,0⟩ ⟨0,100⟩ ⟨100,100⟩ ⟨100,0⟩ = none ∧
    cubic_approx_spline 8 ⟨⟨0,0⟩, ⟨0,100⟩, ⟨100,100⟩, ⟨100,0⟩⟩ 1 5 = none ∧
    (curve_to_quadratic 8 ⟨⟨0,0⟩, ⟨0,100⟩, ⟨100,100⟩, ⟨100,0⟩⟩ 5 =
        Except.ok [⟨0,0⟩, ⟨0,75⟩, ⟨100,75⟩, ⟨100,0⟩] →
      ([⟨0,0⟩, ⟨0,75⟩, ⟨100,75⟩, ⟨100,0⟩] : List Pt).length ≠ 3) :=
  parallel_tangents_never_single_segment 8 ⟨⟨0,0⟩, ⟨0,100⟩, ⟨100,100⟩, ⟨100,0⟩⟩ 5
    [⟨0,0⟩, ⟨0,75⟩, ⟨100,75⟩, ⟨100,0⟩]
    (by norm_num [cross, Pt.mk_sub_mk, Pt.mk_re, Pt.mk_im])

/-- C8 counterexample: at the delta cubic `(2,0), (0,0), (0,0), (2,0)`
with tolerance 1, both endpoints exceed the tolerance, yet the source's
`cubic_farthest_fit_inside` accepts (its first test looks at the interior
control points); the procedure described by the claim — endpoint
fail-fast first — rejects.  The described steps therefore do not compute
the code's function. -/
theorem farthest_fit_counterexample :
    absLe ⟨2,0⟩ 1 = false ∧
    cubic_farthest_fit_inside 1 ⟨2,0⟩ ⟨0,0⟩ ⟨0,0⟩ ⟨2,0⟩ 1 = true ∧
    farthest_fit_spec_steps 1 ⟨2,0⟩ ⟨0,0⟩ ⟨0,0⟩ ⟨2,0⟩ 1 = false := by
  refine ⟨?_, ?_, ?_⟩
  · norm_num [absLe, Pt.mk_normSq]
  · rw [cubic_farthest_fit_inside]
    norm_num [absLe, Pt.mk_normSq]
  · rw [farthest_fit_spec_steps]
    norm_num [absLe, Pt.mk_normSq]

/-- C8 amended: the recursive bound test first accepts when both interior
control points are within tolerance; otherwise it evaluates the delta
curve at its parametric midpoint and fails fast when that single on-curve
point exceeds tolerance; otherwise it bisects at the parametric midpoint
(de Casteljau halves, which evaluate as the curve on `[0,1/2]` and
`[1/2,1]`) and returns the conjunction of the recursive tests on the two
halves. -/
theorem farthest_fit_amended_unfold (fuel : ℕ) (p0 p1 p2 p3 : Pt) (tolerance : ℚ) :
    (cubic_farthest_fit_inside (fuel + 1) p0 p1 p2 p3 tolerance =
      if absLe p2 tolerance && absLe p1 tolerance then true
      else if !(absLe (cubicPoint ⟨p0, p1, p2, p3⟩ (1/2)) tolerance) then false
      else
        cubic_farthest_fit_inside fuel p0 ((p0 + p1).scale (1/2))
          (cubicPoint ⟨p0, p1, p2, p3⟩ (1/2) - (p3 + p2 - p1 - p0).scale (1/8))
          (cubicPoint ⟨p0, p1, p2, p3⟩ (1/2)) tolerance &&
        cubic_farthest_fit_inside fuel (cubicPoint ⟨p0, p1, p2, p3⟩ (1/2))
          (cubicPoint ⟨p0, p1, p2, p3⟩ (1/2) + (p3 + p2 - p1 - p0).scale (1/8))
          ((p2 + p3).scale (1/2)) p3 tolerance) ∧
    (∀ t : ℚ, cubicPoint ⟨p0, (p0 + p1).scale (1/2),
        cubicPoint ⟨p0, p1, p2, p3⟩ (1/2) - (p3 + p2 - p1 - p0).scale (1/8),
        cubicPoint ⟨p0, p1, p2, p3⟩ (1/2)⟩ t =
      cubicPoint ⟨p0, p1, p2, p3⟩ (t / 2)) ∧
    (∀ t : ℚ, cubicPoint ⟨cubicPoint ⟨p0, p1, p2, p3⟩ (1/2),
        cubicPoint ⟨p0, p1, p2, p3⟩ (1/2) + (p3 + p2 - p1 - p0).scale (1/8),
        (p2 + p3).scale (1/2), p3⟩ t =
      cubicPoint ⟨p0, p1, p2, p3⟩ ((t + 1) / 2)) := by
  refine ⟨?_, ?_, ?_⟩
  · rw [cubic_farthest_fit_inside, ← mid_eq_cubicPoint_half]
  · intro t
    rw [← mid_eq_cubicPoint_half]
    exact cubicPoint_left_half p0 p1 p2 p3 t
  · intro t
    rw [← mid_eq_cubicPoint_half]
    exact cubicPoint_right_half p0 p1 p2 p3 t

/-- C9: the closed-form fast paths for splitting into two and three
pieces produce exactly the same result (in exact arithmetic) as the
general power-basis method at `n = 2` and `n = 3`, and the dispatcher's
fast-path results therefore coincide with the general method. -/
theorem split_fast_paths_agree_with_general (p0 p1 p2 p3 : Pt) :
    split_cubic_into_n_gen p0 p1 p2 p3 2 =
      [(split_cubic_into_two p0 p1 p2 p3).1, (split_cubic_into_two p0 p1 p2 p3).2] ∧
    split_cubic_into_n_gen p0 p1 p2 p3 3 =
      [(split_cubic_into_three p0 p1 p2 p3).1, (split_cubic_into_three p0 p1 p2 p3).2.1,
       (split_cubic_into_three p0 p1 p2 p3).2.2] ∧
    split_cubic_into_n p0 p1 p2 p3 2 = split_cubic_into_n_gen p0 p1 p2 p3 2 ∧
    split_cubic_into_n p0 p1 p2 p3 3 = split_cubic_into_n_gen p0 p1 p2 p3 3 := by
  refine ⟨split_two_eq_gen p0 p1 p2 p3, split_three_eq_gen p0 p1 p2 p3, ?_, ?_⟩
  · rw [split_cubic_into_n, if_pos rfl, split_two_eq_gen]
  · rw [split_cubic_into_n, if_neg (by norm_num), if_pos rfl, split_three_eq_gen]

/-- C10: on an empty family with an empty tolerance list, the joint search
succeeds immediately at the first candidate count and returns the empty
list; it never raises. -/
theorem curves_to_quadratic_empty_ok (fuel : ℕ) :
    splinesForN fuel 1 ([] : List (Cubic × ℚ)) = some [] ∧
    curves_to_quadratic fuel [] [] = Except.ok [] := by
  constructor
  · rw [splinesForN]
  · rw [curves_to_quadratic, show MAX_N = 100 from rfl,
      show ([] : List Cubic).zip ([] : List ℚ) = [] from rfl, curvesToQuadAux,
      splinesForN]

end Cu2Qu
